import Mathlib

/-!
# Ray tracer (source.cpp): intersection engine, reflection, refraction, recursive ray casting

A shallow embedding of `src/source.cpp`.

Arithmetic. The program computes in `float`. Two embeddings are given.

The exact embedding is written over an arbitrary linearly ordered field `F` with a
truncation to integers (`FloorRing`): every `float` operation is exact there, so
rounding, overflow, infinities and NaN are not modelled; the one `double` sum that
feeds an integer conversion (line 111) is rounded (`round_double`). The library
functions `sqrtf` and `powf` are parameters (`Libm`); the properties that depend on
what a square root is assume `Libm.Exact`, which the real numbers with `Real.sqrt`
satisfy. All definitions are computable whenever the field and the supplied library
functions are (for instance over `ℚ`). What is proved of this embedding holds of the
program in exact real arithmetic.

The binary32 embedding (`Fl`, `F32`) computes `Sphere::intersection`, `refraction` and
the vector operations they use on IEEE 754 single-precision data, every operation
rounded once to binary32 (round to nearest, ties to even; no fused multiply-add and no
wider intermediate precision). It is evaluated at concrete inputs, where it shows what
the compiled program returns when rounding, underflow, overflow or NaN decide.

Absent header. `geometry.h` (the vector types) is not part of the sources; the vector
operations are modelled componentwise from the specification.
-/

namespace RayTracing

/-! ## Vector primitives (geometry.h) -/

/-- Modelled from the spec: `Vec3f` of the absent header `geometry.h`, a value type of
three floats. -/
@[ext] structure Vec3f (F : Type) where
  x : F
  y : F
  z : F
deriving DecidableEq, Repr

/-- Modelled from the spec: `Vec4f` of the absent header `geometry.h`; the components
are what the source reads as `albedo[0]` .. `albedo[3]`. -/
structure Vec4f (F : Type) where
  c0 : F
  c1 : F
  c2 : F
  c3 : F
deriving DecidableEq, Repr

/-- The C math library functions the source calls (`sqrtf`, `powf`). -/
structure Libm (F : Type) where
  sqrtf : F → F
  powf : F → F → F

/-- What exact arithmetic asks of `sqrtf`: on a non-negative argument it returns the
non-negative square root. -/
structure Libm.Exact {F : Type} [LinearOrderedField F] (M : Libm F) : Prop where
  sqrtf_nonneg : ∀ x : F, 0 ≤ x → 0 ≤ M.sqrtf x
  sqrtf_mul_self : ∀ x : F, 0 ≤ x → M.sqrtf x * M.sqrtf x = x

section Model

variable {F : Type} [LinearOrderedField F]

/-- Modelled from the spec: the default constructor `Vec3f()` of `geometry.h`
(value-initialised components). -/
def Vec3f.zero : Vec3f F := ⟨0, 0, 0⟩

/-- Modelled from the spec: vector addition `a + b` of `geometry.h`. -/
def Vec3f.add (a b : Vec3f F) : Vec3f F := ⟨a.x + b.x, a.y + b.y, a.z + b.z⟩

/-- Modelled from the spec: vector subtraction `a - b` of `geometry.h`. -/
def Vec3f.sub (a b : Vec3f F) : Vec3f F := ⟨a.x - b.x, a.y - b.y, a.z - b.z⟩

/-- Modelled from the spec: unary minus `-a` of `geometry.h`. -/
def Vec3f.neg (a : Vec3f F) : Vec3f F := ⟨-a.x, -a.y, -a.z⟩

/-- Modelled from the spec: multiplication by a scalar, `a * k` of `geometry.h`. -/
def Vec3f.scale (a : Vec3f F) (k : F) : Vec3f F := ⟨a.x * k, a.y * k, a.z * k⟩

/-- Modelled from the spec: the dot product, `a * b` of `geometry.h`. -/
def Vec3f.dot (a b : Vec3f F) : F := a.x * b.x + a.y * b.y + a.z * b.z

/-- Modelled from the spec: `norm()` of `geometry.h`, the Euclidean length. -/
def Vec3f.norm (M : Libm F) (a : Vec3f F) : F := M.sqrtf (a.dot a)

/-- Modelled from the spec: `normalize()` of `geometry.h`, the vector scaled by the
inverse of its length. -/
def Vec3f.normalize (M : Libm F) (a : Vec3f F) : Vec3f F := a.scale (1 / a.norm M)

instance : Add (Vec3f F) := ⟨Vec3f.add⟩
instance : Sub (Vec3f F) := ⟨Vec3f.sub⟩
instance : Neg (Vec3f F) := ⟨Vec3f.neg⟩

/-! ## Scene model (source.cpp lines 8-51) -/

/-- The struct `Light` (lines 9-17). -/
structure Light (F : Type) where
  position : Vec3f F
  intensity : F

/-- The struct `Material` (lines 20-39). -/
structure Material (F : Type) where
  albedo : Vec4f F
  diffuse_color : Vec3f F
  specular_exponent : F
  refractive_index : F

/-- The default constructor `Material()` (lines 26-31). -/
def Material.default : Material F := ⟨⟨1, 0, 0, 0⟩, Vec3f.zero, 0, 1⟩

/-- The struct `Sphere` (lines 42-51). -/
structure Sphere (F : Type) where
  sphere_center : Vec3f F
  radius : F
  material : Material F

/-! ## Sphere intersection (lines 54-68) -/

/-- The method `Sphere::intersection`, in exact arithmetic. The result is `none` when
the method returns `false` and `some t0` when it returns `true` with the out-parameter
set to `t0` (the caller reads the out-parameter only after `true`). The same lines in
`float` are `F32.intersection`. -/
def Sphere.intersection (M : Libm F) (s : Sphere F) (viewpoint direction : Vec3f F) :
    Option F :=
  let v := s.sphere_center - viewpoint
  let tca := v.dot direction
  let d2 := v.dot v - tca * tca
  if d2 > s.radius * s.radius then none
  else
    let thc := M.sqrtf (s.radius * s.radius - d2)
    let t0 := tca - thc
    let t1 := tca + thc
    let t0 := if t0 < 0 then t1 else t0
    if t0 < 0 then none else some t0

/-! ## Reflection and refraction (lines 72-87) -/

/-- The function `reflection` (lines 72-74): `L - N * 2.f * (L * N)`. -/
def reflection (L N : Vec3f F) : Vec3f F := L - (N.scale 2).scale (L.dot N)

/-- The clamped cosine of line 78: `-std::max(-1.f, std::min(1.f, L * N))`. -/
def cosi (L N : Vec3f F) : F := -max (-1) (min 1 (L.dot N))

/-- The function `refraction` (lines 77-87), in exact arithmetic; the default argument
`eta_i = 1.f` is passed explicitly by the callers. In exact arithmetic the recursion of
line 81 terminates because the callee sees the cosine with the opposite sign. The same
lines in `float`, where a NaN dot product keeps the cosine at `-1`, are
`F32.refraction`. -/
def refraction (M : Libm F) (L N : Vec3f F) (eta_t eta_i : F) : Vec3f F :=
  if h : cosi L N < 0 then
    refraction M L (-N) eta_i eta_t
  else
    let eta := eta_i / eta_t
    let k := 1 - eta * eta * (1 - cosi L N * cosi L N)
    if k < 0 then ⟨1, 0, 0⟩
    else L.scale eta + N.scale (eta * cosi L N - M.sqrtf k)
termination_by (if cosi L N < 0 then 1 else 0 : Nat)
decreasing_by
  have hdot : L.dot (-N) = -(L.dot N) := by
    show L.x * (-N.x) + L.y * (-N.y) + L.z * (-N.z) = _
    simp only [Vec3f.dot]; ring
  have h2 : ¬ (cosi L (-N) < 0) := by
    unfold cosi at h ⊢
    rw [hdot, not_lt, neg_nonneg, max_le_iff]
    have h1 : 0 < max (-1) (min 1 (L.dot N)) := by linarith
    rcases lt_max_iff.mp h1 with h3 | h3
    · linarith
    · have h4 := (lt_min_iff.mp h3).2
      exact ⟨by linarith, (min_le_right _ _).trans (by linarith)⟩
  simp [h, h2]

/-! ## Scene intersection (lines 90-115) -/

/-- The constant `std::numeric_limits<float>::max()` (lines 91 and 103): the largest
finite single-precision value, `2^128 - 2^104`. -/
def FLT_MAX : F := 340282346638528859811704183484516925440

/-- The conversion `int(x)` of line 111: truncation toward zero. -/
def toInt [FloorRing F] (x : F) : Int := if 0 ≤ x then ⌊x⌋ else ⌈x⌉

/-- The variables the sphere loop of lines 92-100 updates: the local `spheres_dist`
and the reference parameters `hit`, `N`, `material`. -/
structure SphereScan (F : Type) where
  spheres_dist : F
  hit : Vec3f F
  N : Vec3f F
  material : Material F

/-- One iteration of the loop of lines 92-100 (the body run for `spheres[i] = s`). -/
def sphere_step (M : Libm F) (origin direction : Vec3f F) (st : SphereScan F)
    (s : Sphere F) : SphereScan F :=
  match s.intersection M origin direction with
  | some dist_i =>
    if dist_i < st.spheres_dist then
      let hit := origin + direction.scale dist_i
      ⟨dist_i, hit, (hit - s.sphere_center).normalize M, s.material⟩
    else st
  | none => st

/-- The loop of lines 91-100, started with `spheres_dist = FLT_MAX` and the values the
caller passed in the reference parameters. -/
def sphere_loop (M : Libm F) (origin direction : Vec3f F) (spheres : List (Sphere F))
    (hit N : Vec3f F) (material : Material F) : SphereScan F :=
  spheres.foldl (sphere_step M origin direction) ⟨FLT_MAX, hit, N, material⟩

/-- Rounding to the nearest integer, ties to the even one. -/
def round_even [FloorRing F] (y : F) : ℤ :=
  if y - ⌊y⌋ < 1 / 2 then ⌊y⌋
  else if 1 / 2 < y - ⌊y⌋ then ⌊y⌋ + 1
  else if ⌊y⌋ % 2 = 0 then ⌊y⌋ else ⌊y⌋ + 1

/-- The value of type `double` nearest to `y`, ties to even: `y` rounded to 53
significant bits, the unit of the last place being `2 ^ (e - 52)` for
`2 ^ e ≤ |y| < 2 ^ (e + 1)` (the exponent range of `double` is not modelled). -/
def round_double [FloorRing F] (y : F) : F :=
  if y = 0 then 0
  else (round_even (y / 2 ^ (Int.log 2 |y| - 52)) : F) * 2 ^ (Int.log 2 |y| - 52)

/-- The checkerboard colour of line 111 at the floor point `hit`:
`(int(.5 * hit.x + 1000) + int(.5 * hit.z)) & 1 ? Vec3f(.3, .3, .3) : Vec3f(.3, .2, .1)`.
The literal `.5` is a `double`, so both arguments of `int` are computed in `double`:
the products `.5 * hit.x` and `.5 * hit.z` are exact there, the sum with `1000` is
rounded to the nearest `double` (`round_double`). -/
def checker [FloorRing F] (hit : Vec3f F) : Vec3f F :=
  if (toInt (round_double (1 / 2 * hit.x + 1000)) + toInt (1 / 2 * hit.z)) % 2 ≠ 0
  then ⟨3 / 10, 3 / 10, 3 / 10⟩ else ⟨3 / 10, 2 / 10, 1 / 10⟩

/-- What `scene_intersection` hands back: the returned `bool` and the final values of
the reference parameters `hit`, `N`, `material`. -/
structure SceneHit (F : Type) where
  found : Bool
  hit : Vec3f F
  N : Vec3f F
  material : Material F

/-- The function `scene_intersection` (lines 90-115). The arguments `hit`, `N`,
`material` are the values the reference parameters hold on entry. -/
def scene_intersection [FloorRing F] (M : Libm F) (origin direction : Vec3f F)
    (spheres : List (Sphere F)) (hit N : Vec3f F) (material : Material F) : SceneHit F :=
  let st := sphere_loop M origin direction spheres hit N material
  let floor : F := FLT_MAX
  if |direction.y| > 1 / 1000 then
    let d := -(origin.y + 5) / direction.y
    let pt := origin + direction.scale d
    if d > 0 ∧ |pt.x| < 10 ∧ pt.z < -10 ∧ pt.z > -30 ∧ d < st.spheres_dist then
      ⟨decide (min st.spheres_dist d < 1000), pt, ⟨0, 1, 0⟩,
        { st.material with diffuse_color := checker pt }⟩
    else ⟨decide (min st.spheres_dist floor < 1000), st.hit, st.N, st.material⟩
  else ⟨decide (min st.spheres_dist floor < 1000), st.hit, st.N, st.material⟩

/-- The floor parameter `d` of line 105. -/
def floor_param (origin direction : Vec3f F) : F := -(origin.y + 5) / direction.y

/-- The floor test of lines 104 and 107 without the comparison against the spheres:
`fabs(direction.y) > 1e-3`, `d > 0`, `fabs(pt.x) < 10`, `pt.z < -10`, `pt.z > -30`,
where `pt = origin + direction * d` (line 106). -/
def floor_test (origin direction : Vec3f F) : Prop :=
  |direction.y| > 1 / 1000 ∧ floor_param origin direction > 0 ∧
    |(origin + direction.scale (floor_param origin direction)).x| < 10 ∧
    (origin + direction.scale (floor_param origin direction)).z < -10 ∧
    (origin + direction.scale (floor_param origin direction)).z > -30

/-- The candidate parameters of a ray: the hit parameter of a sphere of the list for
which `Sphere::intersection` succeeds, or the floor parameter when the floor test
accepts. -/
def hit_param (M : Libm F) (origin direction : Vec3f F) (spheres : List (Sphere F))
    (t : F) : Prop :=
  (∃ s ∈ spheres, s.intersection M origin direction = some t) ∨
    (floor_test origin direction ∧ t = floor_param origin direction)

/-! ## Recursive ray casting (lines 118-156) -/

/-- The colour returned at line 123 when nothing is hit or the depth is exceeded. -/
def background : Vec3f F := ⟨1 / 2, 1 / 5, 2 / 5⟩

/-- The biased point of lines 129, 130 and 141:
`dir * N < 0 ? point - N * 1e-3 : point + N * 1e-3`. -/
def offset_point (point N dir : Vec3f F) : Vec3f F :=
  if dir.dot N < 0 then point - N.scale (1 / 1000) else point + N.scale (1 / 1000)

/-- The reflected ray of lines 126 and 129: its origin and its direction. -/
def reflect_ray (M : Libm F) (direction : Vec3f F) (r : SceneHit F) : Vec3f F × Vec3f F :=
  let reflect_direction := (reflection direction r.N).normalize M
  (offset_point r.hit r.N reflect_direction, reflect_direction)

/-- The refracted ray of lines 127 and 130: its origin and its direction. -/
def refract_ray (M : Libm F) (direction : Vec3f F) (r : SceneHit F) : Vec3f F × Vec3f F :=
  let refract_direction :=
    (refraction M direction r.N r.material.refractive_index 1).normalize M
  (offset_point r.hit r.N refract_direction, refract_direction)

/-- The shadow test of lines 138-145 for one light: the value of the condition of the
`if` at line 145. -/
def shadowed [FloorRing F] (M : Libm F) (spheres : List (Sphere F)) (point N : Vec3f F)
    (l : Light F) : Bool :=
  let light_direction := (l.position - point).normalize M
  let light_distance := (l.position - point).norm M
  let shadow_point := offset_point point N light_direction
  let sh := scene_intersection M shadow_point light_direction spheres
    Vec3f.zero Vec3f.zero Material.default
  sh.found && decide ((sh.hit - shadow_point).norm M < light_distance)

/-- One iteration of the light loop of lines 137-150, acting on the pair
`(diffuse_light_intensity, specular_light_intensity)`. -/
def light_step [FloorRing F] (M : Libm F) (spheres : List (Sphere F))
    (direction point N : Vec3f F) (material : Material F) (acc : F × F) (l : Light F) :
    F × F :=
  let light_direction := (l.position - point).normalize M
  if shadowed M spheres point N l then acc
  else
    (acc.1 + l.intensity * max 0 (light_direction.dot N),
     acc.2 + M.powf (max 0 ((-reflection (-light_direction) N).dot direction))
        material.specular_exponent * l.intensity)

/-- Lines 135-155: the light loop and the weighted sum returned by `ray_casting`, given
the hit record and the two colours of the recursive calls. -/
def shade [FloorRing F] (M : Libm F) (spheres : List (Sphere F)) (lights : List (Light F))
    (direction : Vec3f F) (r : SceneHit F) (reflect_color refract_color : Vec3f F) :
    Vec3f F :=
  let li := lights.foldl (light_step M spheres direction r.hit r.N r.material) (0, 0)
  ((r.material.diffuse_color.scale li.1).scale r.material.albedo.c0
    + ((⟨1, 1, 1⟩ : Vec3f F).scale li.2).scale r.material.albedo.c1
    + reflect_color.scale r.material.albedo.c2)
    + refract_color.scale r.material.albedo.c3

/-- The function `ray_casting` (lines 118-156). The test `depth > 5 || !scene_intersection`
short-circuits, so the intersection is computed only when `depth <= 5`. The recursion
is well-founded on `6 - depth`; `depth + 1` cannot wrap around, being computed only when
`depth <= 5`. -/
def ray_casting [FloorRing F] (M : Libm F) (viewpoint direction : Vec3f F)
    (spheres : List (Sphere F)) (lights : List (Light F)) (depth : Nat) : Vec3f F :=
  if h : depth > 5 then background
  else
    let r := scene_intersection M viewpoint direction spheres
      Vec3f.zero Vec3f.zero Material.default
    if r.found = false then background
    else
      let reflect_color := ray_casting M (reflect_ray M direction r).1
        (reflect_ray M direction r).2 spheres lights (depth + 1)
      let refract_color := ray_casting M (refract_ray M direction r).1
        (refract_ray M direction r).2 spheres lights (depth + 1)
      shade M spheres lights direction r reflect_color refract_color
termination_by 6 - depth

/-- The function `ray_casting` run with a bound `fuel` on the number of nested calls,
and instrumented: next to the colour it returns the depths of the invocations that
shaded a hit (reached line 126), in call order. `none` means the bound was exhausted. -/
def ray_casting_fuel [FloorRing F] (M : Libm F) :
    Nat → Vec3f F → Vec3f F → List (Sphere F) → List (Light F) → Nat →
      Option (Vec3f F × List Nat)
  | 0, _, _, _, _, _ => none
  | fuel + 1, viewpoint, direction, spheres, lights, depth =>
    if depth > 5 then some (background, [])
    else
      let r := scene_intersection M viewpoint direction spheres
        Vec3f.zero Vec3f.zero Material.default
      if r.found = false then some (background, [])
      else
        match ray_casting_fuel M fuel (reflect_ray M direction r).1
            (reflect_ray M direction r).2 spheres lights (depth + 1),
          ray_casting_fuel M fuel (refract_ray M direction r).1
            (refract_ray M direction r).2 spheres lights (depth + 1) with
        | some (reflect_color, t1), some (refract_color, t2) =>
          some (shade M spheres lights direction r reflect_color refract_color,
            depth :: (t1 ++ t2))
        | _, _ => none

/-- The function `refraction` run with a bound `fuel` on the number of nested calls,
and instrumented: next to the vector it returns the number of recursive calls made
(line 81). `none` means the bound was exhausted. -/
def refraction_fuel (M : Libm F) : Nat → Vec3f F → Vec3f F → F → F → Option (Vec3f F × Nat)
  | 0, _, _, _, _ => none
  | fuel + 1, L, N, eta_t, eta_i =>
    if cosi L N < 0 then
      match refraction_fuel M fuel L (-N) eta_i eta_t with
      | some (v, calls) => some (v, calls + 1)
      | none => none
    else
      let eta := eta_i / eta_t
      let k := 1 - eta * eta * (1 - cosi L N * cosi L N)
      some (if k < 0 then ⟨1, 0, 0⟩ else L.scale eta + N.scale (eta * cosi L N - M.sqrtf k), 0)

/-- The pair `(diffuse_light_intensity, specular_light_intensity)` after the light loop
of lines 135-150. -/
def light_intensities [FloorRing F] (M : Libm F) (spheres : List (Sphere F))
    (lights : List (Light F)) (direction : Vec3f F) (r : SceneHit F) : F × F :=
  lights.foldl (light_step M spheres direction r.hit r.N r.material) (0, 0)

/-- The diffuse term of line 152:
`material.diffuse_color * diffuse_light_intensity * material.albedo[0]`. -/
def diffuse_term [FloorRing F] (M : Libm F) (spheres : List (Sphere F))
    (lights : List (Light F)) (direction : Vec3f F) (r : SceneHit F) : Vec3f F :=
  (r.material.diffuse_color.scale (light_intensities M spheres lights direction r).1).scale
    r.material.albedo.c0

/-- The specular term of line 153:
`Vec3f(1., 1., 1.) * specular_light_intensity * material.albedo[1]`. -/
def specular_term [FloorRing F] (M : Libm F) (spheres : List (Sphere F))
    (lights : List (Light F)) (direction : Vec3f F) (r : SceneHit F) : Vec3f F :=
  ((⟨1, 1, 1⟩ : Vec3f F).scale (light_intensities M spheres lights direction r).2).scale
    r.material.albedo.c1

/-- The material `ivory` of `main` (line 192):
`Material ivory(1.0, Vec4f(0.6, 0.3, 0.1, 0.0), Vec3f(0.4, 0.4, 0.3), 50.)`. -/
def ivory : Material F := ⟨⟨6 / 10, 3 / 10, 1 / 10, 0⟩, ⟨4 / 10, 4 / 10, 3 / 10⟩, 50, 1⟩

end Model

/-! ## Single-precision arithmetic (IEEE 754 binary32)

The data are NaN, the two infinities and the finite numbers `± m · 2^e`; every
operation returns the correctly rounded result (round to nearest, ties to even), with
signed zeros, subnormal numbers and overflow to infinity. -/

/-- An IEEE 754 binary interchange format: the precision `prec` (bits of the
significand) and the exponent range of the normal numbers. -/
structure Format where
  prec : Nat
  emin : Int
  emax : Int

/-- The format of `float` (binary32). -/
def binary32 : Format := ⟨24, -126, 127⟩

/-- A floating-point datum: NaN, an infinity, or the finite number `± m · 2^e`, kept
with `m` odd, or `m = 0` and `e = 0` for a (signed) zero. -/
inductive Fl where
  | nan : Fl
  | inf (neg : Bool) : Fl
  | fin (neg : Bool) (m : Nat) (e : Int) : Fl
deriving DecidableEq, Repr

namespace Fl

/-- The number of bits of `m`, counted in at most `fuel` halvings. -/
def bitlenAux : Nat → Nat → Nat
  | 0, _ => 0
  | fuel + 1, m => if m = 0 then 0 else bitlenAux fuel (m / 2) + 1

/-- The number of bits of `m`. -/
def bitlen (m : Nat) : Nat := bitlenAux m m

/-- The number of trailing zero bits of `m`, counted in at most `fuel` halvings. -/
def trailingAux : Nat → Nat → Nat
  | 0, _ => 0
  | fuel + 1, m => if m % 2 = 1 then 0 else trailingAux fuel (m / 2) + 1

/-- The number of trailing zero bits of `m > 0`. -/
def trailing (m : Nat) : Nat := trailingAux m m

/-- The finite datum `± m · 2^e` in its kept form. -/
def mk (neg : Bool) (m : Nat) (e : Int) : Fl :=
  if m = 0 then fin neg 0 0 else fin neg (m / 2 ^ trailing m) (e + trailing m)

/-- The value `± m · 2^e` unless it exceeds the largest finite number of the format,
in which case the infinity of that sign. -/
def bounded (f : Format) (neg : Bool) (m : Nat) (e : Int) : Fl :=
  if m ≠ 0 ∧ e + bitlen m - 1 > f.emax then inf neg else mk neg m e

/-- Rounding to nearest, ties to even, of the exact value `± m · 2^e` in the format `f`
(subnormal numbers included; overflow gives an infinity). -/
def round (f : Format) (neg : Bool) (m : Nat) (e : Int) : Fl :=
  if m = 0 then fin neg 0 0
  else
    let qe : Int := max (e + bitlen m - 1) f.emin - (f.prec - 1)
    if qe ≤ e then bounded f neg m e
    else
      let sh := (qe - e).toNat
      let q := m / 2 ^ sh
      let r := m % 2 ^ sh
      let half := 2 ^ (sh - 1)
      bounded f neg (if half < r ∨ (r = half ∧ q % 2 = 1) then q + 1 else q) qe

/-- Unary minus. -/
def neg : Fl → Fl
  | nan => nan
  | inf s => inf (!s)
  | fin s m e => fin (!s) m e

/-- The signed significand of `± m · 2^e` at the exponent `e0 ≤ e`. -/
def scaled (s : Bool) (m : Nat) (e e0 : Int) : Int :=
  if s then -((m * 2 ^ (e - e0).toNat : Nat) : Int) else ((m * 2 ^ (e - e0).toNat : Nat) : Int)

/-- Addition, correctly rounded. -/
def add (f : Format) : Fl → Fl → Fl
  | nan, _ => nan
  | _, nan => nan
  | inf a, inf b => if a = b then inf a else nan
  | inf a, fin _ _ _ => inf a
  | fin _ _ _, inf b => inf b
  | fin s1 m1 e1, fin s2 m2 e2 =>
    let e := min e1 e2
    let s := scaled s1 m1 e1 e + scaled s2 m2 e2 e
    if s = 0 then fin (s1 && s2) 0 0 else round f (decide (s < 0)) s.natAbs e

/-- Subtraction, correctly rounded. -/
def sub (f : Format) (x y : Fl) : Fl := add f x (neg y)

/-- Multiplication, correctly rounded. -/
def mul (f : Format) : Fl → Fl → Fl
  | nan, _ => nan
  | _, nan => nan
  | inf a, inf b => inf (xor a b)
  | inf a, fin s m _ => if m = 0 then nan else inf (xor a s)
  | fin s m _, inf b => if m = 0 then nan else inf (xor s b)
  | fin s1 m1 e1, fin s2 m2 e2 => round f (xor s1 s2) (m1 * m2) (e1 + e2)

/-- Division, correctly rounded. -/
def div (f : Format) : Fl → Fl → Fl
  | nan, _ => nan
  | _, nan => nan
  | inf _, inf _ => nan
  | inf a, fin s _ _ => inf (xor a s)
  | fin s _ _, inf b => fin (xor s b) 0 0
  | fin s1 m1 e1, fin s2 m2 e2 =>
    if m2 = 0 then (if m1 = 0 then nan else inf (xor s1 s2))
    else
      let k := f.prec + 2 + bitlen m2
      let q := m1 * 2 ^ k / m2
      let r := m1 * 2 ^ k % m2
      round f (xor s1 s2) (2 * q + (if r = 0 then 0 else 1)) (e1 - e2 - k - 1)

/-- The integer square root by bisection on the bits `i - 1, ..., 0`. -/
def isqrtAux (n : Nat) : Nat → Nat → Nat
  | 0, r => r
  | i + 1, r => isqrtAux n i (if (r + 2 ^ i) * (r + 2 ^ i) ≤ n then r + 2 ^ i else r)

/-- The integer square root. -/
def isqrt (n : Nat) : Nat := isqrtAux n (bitlen n / 2 + 1) 0

/-- The function `sqrtf`, correctly rounded. -/
def sqrt (f : Format) : Fl → Fl
  | nan => nan
  | inf s => if s then nan else inf false
  | fin s m e =>
    if m = 0 then fin s 0 0
    else if s then nan
    else
      let k0 := 2 * (f.prec + 2)
      let k := if (e - k0) % 2 = 0 then k0 else k0 + 1
      let n := m * 2 ^ k
      let r := isqrt n
      round f false (2 * r + (if r * r = n then 0 else 1)) ((e - k) / 2 - 1)

/-- The comparison `x < y` (false when an operand is NaN). -/
def lt : Fl → Fl → Bool
  | nan, _ => false
  | _, nan => false
  | inf a, inf b => a && !b
  | inf a, fin _ _ _ => a
  | fin _ _ _, inf b => !b
  | fin s1 m1 e1, fin s2 m2 e2 =>
    decide (scaled s1 m1 e1 (min e1 e2) < scaled s2 m2 e2 (min e1 e2))

end Fl

/-! ## The intersection test and the refraction in `float` (lines 54-68, 77-87) -/

/-- The rational value of a finite datum (0 for NaN and the infinities). -/
def Fl.toRat : Fl → ℚ
  | Fl.nan => 0
  | Fl.inf _ => 0
  | Fl.fin s m e => (if s then -1 else 1) * (m : ℚ) * 2 ^ e

namespace F32

/-- The `float` sum `a + b`. -/
def add (a b : Fl) : Fl := Fl.add binary32 a b

/-- The `float` difference `a - b`. -/
def sub (a b : Fl) : Fl := Fl.sub binary32 a b

/-- The `float` product `a * b`. -/
def mul (a b : Fl) : Fl := Fl.mul binary32 a b

/-- The `float` quotient `a / b`. -/
def div (a b : Fl) : Fl := Fl.div binary32 a b

/-- The function `sqrtf` on `float`. -/
def sqrtf (a : Fl) : Fl := Fl.sqrt binary32 a

/-- The constant `0.f`. -/
def zero : Fl := Fl.fin false 0 0

/-- The constant `1.f`. -/
def one : Fl := Fl.fin false 1 0

/-- The template `std::min(a, b)`: `(b < a) ? b : a`. -/
def std_min (a b : Fl) : Fl := if Fl.lt b a then b else a

/-- The template `std::max(a, b)`: `(a < b) ? b : a`. -/
def std_max (a b : Fl) : Fl := if Fl.lt a b then b else a

/-- Modelled from the spec: vector addition `a + b` of `geometry.h`. -/
def vadd (a b : Vec3f Fl) : Vec3f Fl := ⟨add a.x b.x, add a.y b.y, add a.z b.z⟩

/-- Modelled from the spec: vector subtraction `a - b` of `geometry.h`. -/
def vsub (a b : Vec3f Fl) : Vec3f Fl := ⟨sub a.x b.x, sub a.y b.y, sub a.z b.z⟩

/-- Modelled from the spec: unary minus `-a` of `geometry.h`. -/
def vneg (a : Vec3f Fl) : Vec3f Fl := ⟨Fl.neg a.x, Fl.neg a.y, Fl.neg a.z⟩

/-- Modelled from the spec: multiplication by a scalar, `a * k` of `geometry.h`. -/
def vscale (a : Vec3f Fl) (k : Fl) : Vec3f Fl := ⟨mul a.x k, mul a.y k, mul a.z k⟩

/-- Modelled from the spec: the dot product, `a * b` of `geometry.h`, the three
products added in the order x, y, z. (At the inputs evaluated below at most two of
the products are non-zero, or the sum is NaN in every order, so the order of the
additions does not matter.) -/
def dot (a b : Vec3f Fl) : Fl := add (add (mul a.x b.x) (mul a.y b.y)) (mul a.z b.z)

/-- Modelled from the spec: `norm()` of `geometry.h`. -/
def norm (a : Vec3f Fl) : Fl := sqrtf (dot a a)

/-- Modelled from the spec: `normalize()` of `geometry.h`, the vector scaled by the
inverse of its length. (At the zero vector the components are `0 * (1 / 0)`, NaN; a
division `0 / 0` of each component by the length gives NaN as well.) -/
def normalize (a : Vec3f Fl) : Vec3f Fl := vscale a (div one (norm a))

/-- The components of a vector as rational numbers. -/
def val (a : Vec3f Fl) : Vec3f ℚ := ⟨a.x.toRat, a.y.toRat, a.z.toRat⟩

/-- The method `Sphere::intersection` (lines 54-68), every operation rounded to
`float`. The result is `none` when the method returns `false` and `some t0` when it
returns `true` with the out-parameter set to `t0`. -/
def intersection (s : Sphere Fl) (viewpoint direction : Vec3f Fl) : Option Fl :=
  let v := vsub s.sphere_center viewpoint
  let tca := dot v direction
  let d2 := sub (dot v v) (mul tca tca)
  if Fl.lt (mul s.radius s.radius) d2 then none
  else
    let thc := sqrtf (sub (mul s.radius s.radius) d2)
    let t0 := sub tca thc
    let t1 := add tca thc
    let t0 := if Fl.lt t0 zero then t1 else t0
    if Fl.lt t0 zero then none else some t0

/-- The clamped cosine of line 78, `-std::max(-1.f, std::min(1.f, L * N))`, on
`float`. -/
def cosi (L N : Vec3f Fl) : Fl := Fl.neg (std_max (Fl.neg one) (std_min one (dot L N)))

/-- The function `refraction` (lines 77-87) on `float`, run for at most `fuel` nested
calls: `none` when the run needs more. -/
def refraction : Nat → Vec3f Fl → Vec3f Fl → Fl → Fl → Option (Vec3f Fl)
  | 0, _, _, _, _ => none
  | fuel + 1, L, N, eta_t, eta_i =>
    if Fl.lt (cosi L N) zero then refraction fuel L (vneg N) eta_i eta_t
    else
      let eta := div eta_i eta_t
      let k := sub one (mul (mul eta eta) (sub one (mul (cosi L N) (cosi L N))))
      if Fl.lt k zero then some ⟨one, zero, zero⟩
      else some (vadd (vscale L eta) (vscale N (sub (mul eta (cosi L N)) (sqrtf k))))

/-- The default-constructed material (lines 26-31) on `float`. -/
def default_material : Material Fl := ⟨⟨one, zero, zero, zero⟩, ⟨zero, zero, zero⟩, zero, one⟩

/-- The hit point and the normal that the loop of `scene_intersection` records for a
sphere hit at parameter `t` (lines 96-97): `hit = origin + direction * t`,
`N = (hit - sphere_center).normalize()`. -/
def sphere_hit (s : Sphere Fl) (origin direction : Vec3f Fl) (t : Fl) :
    Vec3f Fl × Vec3f Fl :=
  (vadd origin (vscale direction t),
    normalize (vsub (vadd origin (vscale direction t)) s.sphere_center))

end F32

/-! # Properties -/

section Properties

variable {F : Type} [LinearOrderedField F]

/-! ## Vector algebra -/

@[simp] theorem Vec3f.add_x (a b : Vec3f F) : (a + b).x = a.x + b.x := rfl
@[simp] theorem Vec3f.add_y (a b : Vec3f F) : (a + b).y = a.y + b.y := rfl
@[simp] theorem Vec3f.add_z (a b : Vec3f F) : (a + b).z = a.z + b.z := rfl
@[simp] theorem Vec3f.sub_x (a b : Vec3f F) : (a - b).x = a.x - b.x := rfl
@[simp] theorem Vec3f.sub_y (a b : Vec3f F) : (a - b).y = a.y - b.y := rfl
@[simp] theorem Vec3f.sub_z (a b : Vec3f F) : (a - b).z = a.z - b.z := rfl
@[simp] theorem Vec3f.neg_x (a : Vec3f F) : (-a).x = -a.x := rfl
@[simp] theorem Vec3f.neg_y (a : Vec3f F) : (-a).y = -a.y := rfl
@[simp] theorem Vec3f.neg_z (a : Vec3f F) : (-a).z = -a.z := rfl
@[simp] theorem Vec3f.scale_x (a : Vec3f F) (k : F) : (a.scale k).x = a.x * k := rfl
@[simp] theorem Vec3f.scale_y (a : Vec3f F) (k : F) : (a.scale k).y = a.y * k := rfl
@[simp] theorem Vec3f.scale_z (a : Vec3f F) (k : F) : (a.scale k).z = a.z * k := rfl

@[simp] theorem Vec3f.mk_add_mk (a b c d e f : F) :
    (⟨a, b, c⟩ : Vec3f F) + ⟨d, e, f⟩ = ⟨a + d, b + e, c + f⟩ := rfl
@[simp] theorem Vec3f.mk_sub_mk (a b c d e f : F) :
    (⟨a, b, c⟩ : Vec3f F) - ⟨d, e, f⟩ = ⟨a - d, b - e, c - f⟩ := rfl
@[simp] theorem Vec3f.neg_mk (a b c : F) : -(⟨a, b, c⟩ : Vec3f F) = ⟨-a, -b, -c⟩ := rfl

theorem Vec3f.dot_neg_right (a b : Vec3f F) : a.dot (-b) = -(a.dot b) := by
  simp only [Vec3f.dot, Vec3f.neg_x, Vec3f.neg_y, Vec3f.neg_z]; ring

/-- The square root of a square of a non-negative number is that number. -/
theorem Libm.Exact.sqrtf_sq_of_nonneg {M : Libm F} (hM : M.Exact) {a : F} (ha : 0 ≤ a) :
    M.sqrtf (a * a) = a := by
  have h0 : 0 ≤ a * a := mul_self_nonneg a
  have h1 := hM.sqrtf_nonneg _ h0
  have h2 := hM.sqrtf_mul_self _ h0
  exact (mul_self_inj h1 ha).mp h2

/-- The real numbers with `Real.sqrt` are an exact arithmetic. -/
theorem real_exact (p : ℝ → ℝ → ℝ) : (Libm.mk Real.sqrt p).Exact :=
  ⟨fun x _ => Real.sqrt_nonneg x, fun _ hx => Real.mul_self_sqrt hx⟩

/-! ## Sphere intersection -/

/-- C2 (amended). In exact real arithmetic, a ray that starts strictly outside a
sphere (`|C - O|² > r²`) and whose direction points away from the centre
(`(C - O)·D ≤ 0`) does not intersect it: `Sphere::intersection` returns `false`. Only
`r²` enters, so the sign of the radius plays no role. -/
theorem intersection_outside_pointing_away (M : Libm F) (hM : M.Exact) (s : Sphere F)
    (O D : Vec3f F)
    (hout : (s.sphere_center - O).dot (s.sphere_center - O) > s.radius * s.radius)
    (haway : (s.sphere_center - O).dot D ≤ 0) :
    s.intersection M O D = none := by
  unfold Sphere.intersection
  simp only []
  set v := s.sphere_center - O with hv
  set tca := v.dot D with htca
  by_cases hd : v.dot v - tca * tca > s.radius * s.radius
  · rw [if_pos hd]
  · rw [if_neg hd]
    have hrad : 0 ≤ s.radius * s.radius - (v.dot v - tca * tca) := by linarith [not_lt.mp hd]
    have h1 := hM.sqrtf_nonneg _ hrad
    have h2 := hM.sqrtf_mul_self _ hrad
    set thc := M.sqrtf (s.radius * s.radius - (v.dot v - tca * tca)) with hthc
    have htca2 : thc * thc < tca * tca := by linarith
    have hlt : thc < -tca := by
      have h3 : thc * thc < (-tca) * (-tca) := by linarith
      exact lt_of_mul_self_lt_mul_self₀ (by linarith) h3
    have ht0 : tca - thc < 0 := by linarith
    rw [if_pos ht0, if_pos (by linarith)]

theorem intersection_outside_pointing_away_witness :
    (Sphere.mk (⟨0, 0, -4⟩ : Vec3f ℝ) 1 Material.default).intersection
      (Libm.mk Real.sqrt Real.rpow) ⟨0, 0, 0⟩ ⟨0, 0, 1⟩ = none :=
  intersection_outside_pointing_away _ (real_exact _) _ _ _
    (by norm_num [Vec3f.dot]) (by norm_num [Vec3f.dot])

theorem cosi_neg_normal (L N : Vec3f F) : cosi L (-N) = -cosi L N := by
  unfold cosi
  rw [Vec3f.dot_neg_right]
  rcases le_total (L.dot N) 1 with h1 | h1 <;> rcases le_total (L.dot N) (-1) with h2 | h2 <;>
    rcases le_total (-(L.dot N)) 1 with h3 | h3 <;>
    rcases le_total (-(L.dot N)) (-1) with h4 | h4 <;>
    simp [min_eq_left, min_eq_right, max_eq_left, max_eq_right, *] <;> linarith

/-- The non-recursive branch of `refraction` (lines 83-86). -/
theorem refraction_of_cosi_nonneg (M : Libm F) (L N : Vec3f F) (eta_t eta_i : F)
    (h : 0 ≤ cosi L N) :
    refraction M L N eta_t eta_i =
      if 1 - eta_i / eta_t * (eta_i / eta_t) * (1 - cosi L N * cosi L N) < 0 then ⟨1, 0, 0⟩
      else L.scale (eta_i / eta_t) + N.scale (eta_i / eta_t * cosi L N -
        M.sqrtf (1 - eta_i / eta_t * (eta_i / eta_t) * (1 - cosi L N * cosi L N))) := by
  rw [refraction, dif_neg (not_lt.mpr h)]

/-- The recursive branch of `refraction` (line 81). -/
theorem refraction_of_cosi_neg (M : Libm F) (L N : Vec3f F) (eta_t eta_i : F)
    (h : cosi L N < 0) :
    refraction M L N eta_t eta_i = refraction M L (-N) eta_i eta_t := by
  rw [refraction, dif_pos h]

theorem refraction_one_one_of_cosi_nonneg (M : Libm F) (hM : M.Exact) (L N : Vec3f F)
    (h : 0 ≤ cosi L N) : refraction M L N 1 1 = L := by
  rw [refraction_of_cosi_nonneg M L N 1 1 h]
  have hk : 1 - (1 : F) / 1 * (1 / 1) * (1 - cosi L N * cosi L N) = cosi L N * cosi L N := by
    ring
  rw [hk, if_neg (not_lt.mpr (mul_self_nonneg _)), hM.sqrtf_sq_of_nonneg h]
  ext <;> simp

/-- C7 (amended). In exact real arithmetic, with equal indices `eta_t = eta_i = 1`
the function `refraction` returns the incoming direction unchanged, for every
direction and every normal, whether or not the recursive branch that flips the normal
is taken. -/
theorem refraction_equal_indices (M : Libm F) (hM : M.Exact) (L N : Vec3f F) :
    refraction M L N 1 1 = L := by
  by_cases h : cosi L N < 0
  · rw [refraction_of_cosi_neg M L N 1 1 h]
    apply refraction_one_one_of_cosi_nonneg M hM
    rw [cosi_neg_normal]; linarith
  · exact refraction_one_one_of_cosi_nonneg M hM L N (not_lt.mp h)

theorem refraction_equal_indices_witness :
    refraction (Libm.mk Real.sqrt Real.rpow) ⟨3 / 5, 0, 4 / 5⟩ ⟨0, 0, 1⟩ 1 1
      = (⟨3 / 5, 0, 4 / 5⟩ : Vec3f ℝ) :=
  refraction_equal_indices _ (real_exact _) _ _

/-- C8. Let the orientation step replace `N` by `-N` and swap the two indices when
`cosi < 0`. If the discriminant `k = 1 - eta² (1 - cosi²)` of the oriented data, with
`eta` the ratio of the (swapped) indices, is negative, `refraction` returns exactly
`(1, 0, 0)`. -/
theorem refraction_negative_discriminant (M : Libm F) (L N : Vec3f F) (eta_t eta_i : F)
    (hk : 1 - (if cosi L N < 0 then eta_t / eta_i else eta_i / eta_t)
          * (if cosi L N < 0 then eta_t / eta_i else eta_i / eta_t)
          * (1 - cosi L (if cosi L N < 0 then -N else N)
                * cosi L (if cosi L N < 0 then -N else N)) < 0) :
    refraction M L N eta_t eta_i = ⟨1, 0, 0⟩ := by
  by_cases h : cosi L N < 0
  · simp only [if_pos h] at hk
    have h2 : 0 ≤ cosi L (-N) := by rw [cosi_neg_normal]; linarith
    rw [refraction_of_cosi_neg M L N _ _ h, refraction_of_cosi_nonneg M L (-N) _ _ h2,
      if_pos hk]
  · simp only [if_neg h] at hk
    rw [refraction_of_cosi_nonneg M L N _ _ (not_lt.mp h), if_pos hk]

theorem refraction_negative_discriminant_witness :
    refraction (Libm.mk Real.sqrt Real.rpow) ⟨4 / 5, 0, 3 / 5⟩ ⟨0, 0, 1⟩ (3 / 2) 1
      = (⟨1, 0, 0⟩ : Vec3f ℝ) :=
  refraction_negative_discriminant _ _ _ _ _ (by norm_num [cosi, Vec3f.dot])

theorem FLT_MAX_ge : (1000 : F) ≤ FLT_MAX := by
  unfold FLT_MAX; norm_num

/-- The loop never increases `spheres_dist`. -/
theorem sphere_fold_dist_le (M : Libm F) (O D : Vec3f F) (l : List (Sphere F)) :
    ∀ st : SphereScan F,
      (l.foldl (sphere_step M O D) st).spheres_dist ≤ st.spheres_dist := by
  induction l with
  | nil => intro st; exact le_refl _
  | cons s l ih =>
    intro st
    rw [List.foldl_cons]
    refine (ih _).trans ?_
    unfold sphere_step
    split
    · split
      · exact le_of_lt (by assumption)
      · exact le_refl _
    · exact le_refl _

/-- After the loop `spheres_dist` is at most the parameter of every sphere hit. -/
theorem sphere_fold_le_hit (M : Libm F) (O D : Vec3f F) (l : List (Sphere F)) :
    ∀ st : SphereScan F, ∀ s ∈ l, ∀ t, s.intersection M O D = some t →
      (l.foldl (sphere_step M O D) st).spheres_dist ≤ t := by
  induction l with
  | nil => intro st s hs; simp at hs
  | cons a l ih =>
    intro st s hs t ht
    rw [List.foldl_cons]
    rcases List.mem_cons.mp hs with rfl | hmem
    · refine (sphere_fold_dist_le M O D l _).trans ?_
      unfold sphere_step
      rw [ht]
      simp only []
      split
      · exact le_refl _
      · exact not_lt.mp (by assumption)
    · exact ih _ s hmem t ht

/-- After the loop either nothing was recorded, or the record is that of a sphere of the
list hit at the parameter `spheres_dist`, which is below the initial value. -/
theorem sphere_fold_cases (M : Libm F) (O D : Vec3f F) (l : List (Sphere F)) :
    ∀ st : SphereScan F,
      l.foldl (sphere_step M O D) st = st ∨
      ∃ s ∈ l, ∃ t, s.intersection M O D = some t ∧ t < st.spheres_dist ∧
        l.foldl (sphere_step M O D) st =
          ⟨t, O + D.scale t, ((O + D.scale t) - s.sphere_center).normalize M, s.material⟩ := by
  induction l with
  | nil => intro st; exact Or.inl rfl
  | cons a l ih =>
    intro st
    rw [List.foldl_cons]
    have hstep : sphere_step M O D st a = st ∨
        ∃ t, a.intersection M O D = some t ∧ t < st.spheres_dist ∧
          sphere_step M O D st a =
            ⟨t, O + D.scale t, ((O + D.scale t) - a.sphere_center).normalize M,
              a.material⟩ := by
      unfold sphere_step
      cases hi : a.intersection M O D with
      | none => exact Or.inl rfl
      | some t =>
        simp only []
        by_cases hlt : t < st.spheres_dist
        · rw [if_pos hlt]; exact Or.inr ⟨t, rfl, hlt, rfl⟩
        · rw [if_neg hlt]; exact Or.inl rfl
    rcases ih (sphere_step M O D st a) with h | ⟨s, hs, t, ht, hlt, heq⟩
    · rw [h]
      rcases hstep with h1 | ⟨t, ht, hlt, heq⟩
      · exact Or.inl h1
      · exact Or.inr ⟨a, List.mem_cons_self _ _, t, ht, hlt, heq⟩
    · refine Or.inr ⟨s, List.mem_cons_of_mem _ hs, t, ht, ?_, heq⟩
      rcases hstep with h1 | ⟨t1, _, hlt1, heq1⟩
      · rw [h1] at hlt; exact hlt
      · rw [heq1] at hlt; exact lt_trans hlt hlt1

/-- A sphere hit nearer than the current `spheres_dist` replaces the record. -/
theorem sphere_step_of_hit (M : Libm F) (O D : Vec3f F) (st : SphereScan F) (s : Sphere F)
    (t : F) (ht : s.intersection M O D = some t) (hlt : t < st.spheres_dist) :
    sphere_step M O D st s =
      ⟨t, O + D.scale t, ((O + D.scale t) - s.sphere_center).normalize M, s.material⟩ := by
  unfold sphere_step
  rw [ht]
  simp only []
  rw [if_pos hlt]

/-- Spheres hit no nearer than the current `spheres_dist` leave the record unchanged. -/
theorem sphere_fold_unchanged (M : Libm F) (O D : Vec3f F) (l : List (Sphere F)) :
    ∀ st : SphereScan F,
      (∀ s ∈ l, ∀ t, s.intersection M O D = some t → st.spheres_dist ≤ t) →
      l.foldl (sphere_step M O D) st = st := by
  induction l with
  | nil => intro st _; rfl
  | cons a l ih =>
    intro st h
    rw [List.foldl_cons]
    have hstep : sphere_step M O D st a = st := by
      unfold sphere_step
      cases hi : a.intersection M O D with
      | none => rfl
      | some t =>
        simp only []
        rw [if_neg (not_lt.mpr (h a (List.mem_cons_self _ _) t hi))]
    rw [hstep]
    exact ih st (fun s hs t ht => h s (List.mem_cons_of_mem _ hs) t ht)

section Scene

variable [FloorRing F]

/-- The floor branch of `scene_intersection` (lines 108-111). -/
theorem scene_intersection_of_floor (M : Libm F) (O D : Vec3f F) (spheres : List (Sphere F))
    (hit N : Vec3f F) (material : Material F)
    (h : floor_test O D ∧
      floor_param O D < (sphere_loop M O D spheres hit N material).spheres_dist) :
    scene_intersection M O D spheres hit N material =
      ⟨decide (floor_param O D < 1000), O + D.scale (floor_param O D), ⟨0, 1, 0⟩,
        { (sphere_loop M O D spheres hit N material).material with
          diffuse_color := checker (O + D.scale (floor_param O D)) }⟩ := by
  obtain ⟨⟨h1, h2, h3, h4, h5⟩, h6⟩ := h
  unfold scene_intersection
  simp only []
  rw [if_pos h1, if_pos ⟨h2, h3, h4, h5, h6⟩]
  have hmin : min (sphere_loop M O D spheres hit N material).spheres_dist
      (-(O.y + 5) / D.y) = floor_param O D := min_eq_right (le_of_lt h6)
  rw [hmin]
  rfl

/-- Without the floor branch `scene_intersection` returns what the sphere loop left. -/
theorem scene_intersection_of_not_floor (M : Libm F) (O D : Vec3f F)
    (spheres : List (Sphere F)) (hit N : Vec3f F) (material : Material F)
    (h : ¬ (floor_test O D ∧
      floor_param O D < (sphere_loop M O D spheres hit N material).spheres_dist)) :
    scene_intersection M O D spheres hit N material =
      ⟨decide ((sphere_loop M O D spheres hit N material).spheres_dist < 1000),
        (sphere_loop M O D spheres hit N material).hit,
        (sphere_loop M O D spheres hit N material).N,
        (sphere_loop M O D spheres hit N material).material⟩ := by
  have hdec : decide (min (sphere_loop M O D spheres hit N material).spheres_dist
      (FLT_MAX : F) < 1000) =
      decide ((sphere_loop M O D spheres hit N material).spheres_dist < 1000) := by
    congr 1
    apply propext
    rw [min_lt_iff]
    constructor
    · rintro (h1 | h1)
      · exact h1
      · exact absurd h1 (not_lt.mpr FLT_MAX_ge)
    · exact Or.inl
  unfold scene_intersection
  simp only []
  by_cases h1 : |D.y| > 1 / 1000
  · rw [if_pos h1]
    by_cases h2 : -(O.y + 5) / D.y > 0 ∧ |(O + D.scale (-(O.y + 5) / D.y)).x| < 10 ∧
        (O + D.scale (-(O.y + 5) / D.y)).z < -10 ∧
        (O + D.scale (-(O.y + 5) / D.y)).z > -30 ∧
        -(O.y + 5) / D.y < (sphere_loop M O D spheres hit N material).spheres_dist
    · exact absurd ⟨⟨h1, h2.1, h2.2.1, h2.2.2.1, h2.2.2.2.1⟩, h2.2.2.2.2⟩ h
    · rw [if_neg h2, hdec]
  · rw [if_neg h1, hdec]

/-- C1. Whenever `scene_intersection` returns `true`, the returned hit point is
`O + D·t` for the smallest candidate parameter `t` (sphere hit parameters and the
floor parameter when the floor test accepts), and `t < 1000`; it returns `false`
exactly when no candidate parameter below 1000 exists. -/
theorem scene_intersection_nearest (M : Libm F) (O D : Vec3f F) (spheres : List (Sphere F))
    (hit N : Vec3f F) (material : Material F) :
    ((scene_intersection M O D spheres hit N material).found = true →
      ∃ t, hit_param M O D spheres t ∧ (∀ u, hit_param M O D spheres u → t ≤ u) ∧
        t < 1000 ∧ (scene_intersection M O D spheres hit N material).hit = O + D.scale t) ∧
    ((scene_intersection M O D spheres hit N material).found = false ↔
      ¬ ∃ t, hit_param M O D spheres t ∧ t < 1000) := by
  have hle : ∀ u, (∃ s ∈ spheres, s.intersection M O D = some u) →
      (sphere_loop M O D spheres hit N material).spheres_dist ≤ u := by
    rintro u ⟨s, hs, hu⟩
    exact sphere_fold_le_hit M O D spheres _ s hs u hu
  by_cases hfl : floor_test O D ∧
      floor_param O D < (sphere_loop M O D spheres hit N material).spheres_dist
  · rw [scene_intersection_of_floor M O D spheres hit N material hfl]
    have hmin : ∀ u, hit_param M O D spheres u → floor_param O D ≤ u := by
      rintro u (hu | ⟨_, rfl⟩)
      · exact le_of_lt (lt_of_lt_of_le hfl.2 (hle u hu))
      · exact le_refl _
    constructor
    · intro hfound
      exact ⟨floor_param O D, Or.inr ⟨hfl.1, rfl⟩, hmin, of_decide_eq_true hfound, rfl⟩
    · simp only [decide_eq_false_iff_not]
      constructor
      · rintro hge ⟨t, ht, hlt⟩
        exact hge (lt_of_le_of_lt (hmin t ht) hlt)
      · intro hno hlt
        exact hno ⟨floor_param O D, Or.inr ⟨hfl.1, rfl⟩, hlt⟩
  · rw [scene_intersection_of_not_floor M O D spheres hit N material hfl]
    have hmin : ∀ u, hit_param M O D spheres u →
        (sphere_loop M O D spheres hit N material).spheres_dist ≤ u := by
      rintro u (hu | ⟨hft, rfl⟩)
      · exact hle u hu
      · exact not_lt.mp (fun hlt => hfl ⟨hft, hlt⟩)
    have hrec : (sphere_loop M O D spheres hit N material).spheres_dist < 1000 →
        hit_param M O D spheres (sphere_loop M O D spheres hit N material).spheres_dist ∧
        (sphere_loop M O D spheres hit N material).hit =
          O + D.scale (sphere_loop M O D spheres hit N material).spheres_dist := by
      intro hlt
      rcases sphere_fold_cases M O D spheres ⟨FLT_MAX, hit, N, material⟩ with
        h | ⟨s, hs, t, ht, _, heq⟩
      · exfalso
        have h2 : (sphere_loop M O D spheres hit N material).spheres_dist = FLT_MAX := by
          unfold sphere_loop; rw [h]
        rw [h2] at hlt
        exact absurd hlt (not_lt.mpr FLT_MAX_ge)
      · unfold sphere_loop
        rw [heq]
        exact ⟨Or.inl ⟨s, hs, ht⟩, rfl⟩
    constructor
    · intro hfound
      have hlt := of_decide_eq_true hfound
      exact ⟨_, (hrec hlt).1, hmin, hlt, (hrec hlt).2⟩
    · simp only [decide_eq_false_iff_not]
      constructor
      · rintro hge ⟨t, ht, hlt⟩
        exact hge (lt_of_le_of_lt (hmin t ht) hlt)
      · intro hno hlt
        exact hno ⟨_, (hrec hlt).1, hlt⟩

/-- C10. When the first nearest sphere `s` of the list is hit at exactly the floor
parameter `d` (every earlier sphere is hit farther, no later sphere nearer), the sphere
wins, whether or not the other conditions of the floor test hold: the returned point is
`O + D·d`, the normal is the normalised `hit - center` of `s`, and the material is that
of `s`, its diffuse colour included. The bound `d < FLT_MAX` says that the loop, which
starts from `spheres_dist = FLT_MAX`, recorded the hit. -/
theorem scene_intersection_tie (M : Libm F) (O D : Vec3f F) (pre post : List (Sphere F))
    (s : Sphere F) (hit N : Vec3f F) (material : Material F)
    (hs : s.intersection M O D = some (floor_param O D))
    (hpre : ∀ a ∈ pre, ∀ t, a.intersection M O D = some t → floor_param O D < t)
    (hpost : ∀ a ∈ post, ∀ t, a.intersection M O D = some t → floor_param O D ≤ t)
    (hmax : floor_param O D < FLT_MAX) :
    (scene_intersection M O D (pre ++ s :: post) hit N material).found
        = decide (floor_param O D < 1000) ∧
    (scene_intersection M O D (pre ++ s :: post) hit N material).hit
        = O + D.scale (floor_param O D) ∧
    (scene_intersection M O D (pre ++ s :: post) hit N material).N
        = ((O + D.scale (floor_param O D)) - s.sphere_center).normalize M ∧
    (scene_intersection M O D (pre ++ s :: post) hit N material).material = s.material := by
  have hloop : sphere_loop M O D (pre ++ s :: post) hit N material =
      ⟨floor_param O D, O + D.scale (floor_param O D),
        ((O + D.scale (floor_param O D)) - s.sphere_center).normalize M, s.material⟩ := by
    unfold sphere_loop
    rw [List.foldl_append, List.foldl_cons]
    have h1 : floor_param O D <
        (pre.foldl (sphere_step M O D) ⟨FLT_MAX, hit, N, material⟩).spheres_dist := by
      rcases sphere_fold_cases M O D pre ⟨FLT_MAX, hit, N, material⟩ with
        h | ⟨a, ha, t, ht, _, heq⟩
      · rw [h]; exact hmax
      · rw [heq]; exact hpre a ha t ht
    have h2 : sphere_step M O D
        (pre.foldl (sphere_step M O D) ⟨FLT_MAX, hit, N, material⟩) s =
        ⟨floor_param O D, O + D.scale (floor_param O D),
          ((O + D.scale (floor_param O D)) - s.sphere_center).normalize M, s.material⟩ := by
      exact sphere_step_of_hit M O D _ s _ hs h1
    rw [h2]
    exact sphere_fold_unchanged M O D post _ hpost
  have hnf : ¬ (floor_test O D ∧ floor_param O D <
      (sphere_loop M O D (pre ++ s :: post) hit N material).spheres_dist) := by
    rw [hloop]
    exact fun h => lt_irrefl _ h.2
  rw [scene_intersection_of_not_floor M O D _ hit N material hnf, hloop]
  exact ⟨rfl, rfl, rfl, rfl⟩

/-! ## Recursive ray casting -/

/-- The exits of line 123 and the recursive case of `ray_casting`. -/
theorem ray_casting_unfold (M : Libm F) (O D : Vec3f F) (spheres : List (Sphere F))
    (lights : List (Light F)) (depth : Nat) :
    ray_casting M O D spheres lights depth =
      if depth > 5 then background
      else if (scene_intersection M O D spheres Vec3f.zero Vec3f.zero
          Material.default).found = false then background
      else shade M spheres lights D
        (scene_intersection M O D spheres Vec3f.zero Vec3f.zero Material.default)
        (ray_casting M
          (reflect_ray M D (scene_intersection M O D spheres Vec3f.zero Vec3f.zero
            Material.default)).1
          (reflect_ray M D (scene_intersection M O D spheres Vec3f.zero Vec3f.zero
            Material.default)).2 spheres lights (depth + 1))
        (ray_casting M
          (refract_ray M D (scene_intersection M O D spheres Vec3f.zero Vec3f.zero
            Material.default)).1
          (refract_ray M D (scene_intersection M O D spheres Vec3f.zero Vec3f.zero
            Material.default)).2 spheres lights (depth + 1)) := by
  rw [ray_casting]
  by_cases h : depth > 5
  · rw [dif_pos h, if_pos h]
  · rw [dif_neg h, if_neg h]

/-- With no sphere and no accepted floor, `scene_intersection` returns `false`. -/
theorem scene_intersection_empty_miss (M : Libm F) (O D : Vec3f F) (hit N : Vec3f F)
    (material : Material F) (h : ¬ floor_test O D) :
    (scene_intersection M O D [] hit N material).found = false := by
  rw [scene_intersection_of_not_floor M O D [] hit N material (fun hh => h hh.1)]
  show decide ((FLT_MAX : F) < 1000) = false
  exact decide_eq_false (not_lt.mpr FLT_MAX_ge)

/-- C4. In a scene with an empty sphere list, a ray for which the floor test does not
accept (`|D.y| ≤ 1e-3`, or the plane parameter is not positive, or the plane point is
outside `|x| < 10`, `-30 < z < -10`) gets exactly the background colour
`(0.5, 0.2, 0.4)` from `ray_casting`, for every light list and every depth. -/
theorem ray_casting_miss_background (M : Libm F) (O D : Vec3f F) (lights : List (Light F))
    (depth : Nat)
    (h : |D.y| ≤ 1 / 1000 ∨ ¬ (floor_param O D > 0) ∨
      ¬ (|(O + D.scale (floor_param O D)).x| < 10) ∨
      ¬ ((O + D.scale (floor_param O D)).z < -10 ∧
          (O + D.scale (floor_param O D)).z > -30)) :
    ray_casting M O D [] lights depth = (⟨1 / 2, 1 / 5, 2 / 5⟩ : Vec3f F) := by
  have hnf : ¬ floor_test O D := by
    rintro ⟨h1, h2, h3, h4, h5⟩
    rcases h with h | h | h | h
    · exact absurd h1 (not_lt.mpr h)
    · exact h h2
    · exact h h3
    · exact h ⟨h4, h5⟩
  rw [ray_casting_unfold]
  by_cases hd : depth > 5
  · rw [if_pos hd]; rfl
  · rw [if_neg hd, if_pos (scene_intersection_empty_miss M O D _ _ _ hnf)]; rfl

/-- With `fuel` above `6 - depth` the bounded run of `ray_casting` returns the colour
of `ray_casting`, and shades hits only at depths from `depth` to 5. -/
theorem ray_casting_fuel_enough (M : Libm F) (spheres : List (Sphere F))
    (lights : List (Light F)) :
    ∀ (fuel : Nat) (O D : Vec3f F) (depth : Nat), 6 - depth < fuel →
      ∃ trace, ray_casting_fuel M fuel O D spheres lights depth =
          some (ray_casting M O D spheres lights depth, trace) ∧
        ∀ d ∈ trace, depth ≤ d ∧ d ≤ 5 := by
  intro fuel
  induction fuel with
  | zero => intro O D depth h; exact absurd h (Nat.not_lt_zero _)
  | succ n ih =>
    intro O D depth h
    rw [ray_casting_unfold]
    simp only [ray_casting_fuel]
    by_cases hd : depth > 5
    · rw [if_pos hd, if_pos hd]
      exact ⟨[], rfl, by simp⟩
    · rw [if_neg hd, if_neg hd]
      by_cases hf : (scene_intersection M O D spheres Vec3f.zero Vec3f.zero
          Material.default).found = false
      · rw [if_pos hf, if_pos hf]
        exact ⟨[], rfl, by simp⟩
      · rw [if_neg hf, if_neg hf]
        have hn : 6 - (depth + 1) < n := by omega
        obtain ⟨t1, h1, ht1⟩ := ih
          (reflect_ray M D (scene_intersection M O D spheres Vec3f.zero Vec3f.zero
            Material.default)).1
          (reflect_ray M D (scene_intersection M O D spheres Vec3f.zero Vec3f.zero
            Material.default)).2 (depth + 1) hn
        obtain ⟨t2, h2, ht2⟩ := ih
          (refract_ray M D (scene_intersection M O D spheres Vec3f.zero Vec3f.zero
            Material.default)).1
          (refract_ray M D (scene_intersection M O D spheres Vec3f.zero Vec3f.zero
            Material.default)).2 (depth + 1) hn
        rw [h1, h2]
        refine ⟨depth :: (t1 ++ t2), rfl, ?_⟩
        intro d hmem
        rcases List.mem_cons.mp hmem with rfl | hmem
        · exact ⟨le_refl _, by omega⟩
        · rcases List.mem_append.mp hmem with hm | hm
          · have := ht1 d hm; omega
          · have := ht2 d hm; omega

/-- The depth bound of `ray_casting` in exact arithmetic, where `refraction` always
returns: the recursion is well-founded on `6 - depth`. For every scene, light list,
ray and depth, a run bounded to more than `6 - depth` nested calls returns the colour;
a call with `depth > 5` returns the background colour `(0.5, 0.2, 0.4)` without
recursing (one call suffices); and from a primary call at depth 0 hits are shaded at
depths 0..5 only. -/
theorem ray_casting_total (M : Libm F) (O D : Vec3f F) (spheres : List (Sphere F))
    (lights : List (Light F)) (depth : Nat) :
    (∀ fuel, 6 - depth < fuel →
      ∃ trace, ray_casting_fuel M fuel O D spheres lights depth =
          some (ray_casting M O D spheres lights depth, trace) ∧
        ∀ d ∈ trace, depth ≤ d ∧ d ≤ 5) ∧
    (depth > 5 →
      ray_casting M O D spheres lights depth = (⟨1 / 2, 1 / 5, 2 / 5⟩ : Vec3f F) ∧
      ray_casting_fuel M 1 O D spheres lights depth
        = some ((⟨1 / 2, 1 / 5, 2 / 5⟩ : Vec3f F), [])) ∧
    (∃ trace, ray_casting_fuel M 7 O D spheres lights 0 =
          some (ray_casting M O D spheres lights 0, trace) ∧ ∀ d ∈ trace, d ≤ 5) := by
  refine ⟨?_, ?_, ?_⟩
  · intro fuel hfuel
    exact ray_casting_fuel_enough M spheres lights fuel O D depth hfuel
  · intro hd
    constructor
    · rw [ray_casting_unfold, if_pos hd]; rfl
    · simp only [ray_casting_fuel]
      rw [if_pos hd]; rfl
  · obtain ⟨trace, h1, h2⟩ := ray_casting_fuel_enough M spheres lights 7 O D 0 (by omega)
    exact ⟨trace, h1, fun d hd => (h2 d hd).2⟩

/-- C6. If the shadow ray cast from the biased hit point toward a light makes
`scene_intersection` return `true` with a hit strictly nearer to the shadow origin than
the light is to the hit point, that light leaves the diffuse and specular intensities
unchanged; with a single such light the colour returned by `ray_casting` is
`reflect_color * albedo[2] + refract_color * albedo[3]`. -/
theorem shadowed_light_adds_nothing (M : Libm F) (spheres : List (Sphere F))
    (point N : Vec3f F) (l : Light F)
    (hfound : (scene_intersection M
        (offset_point point N ((l.position - point).normalize M))
        ((l.position - point).normalize M) spheres
        Vec3f.zero Vec3f.zero Material.default).found = true)
    (hnear : ((scene_intersection M
        (offset_point point N ((l.position - point).normalize M))
        ((l.position - point).normalize M) spheres
        Vec3f.zero Vec3f.zero Material.default).hit
          - offset_point point N ((l.position - point).normalize M)).norm M
        < (l.position - point).norm M) :
    (∀ (direction : Vec3f F) (material : Material F) (acc : F × F),
      light_step M spheres direction point N material acc l = acc) ∧
    (∀ (O D : Vec3f F) (depth : Nat), depth ≤ 5 →
      (scene_intersection M O D spheres Vec3f.zero Vec3f.zero Material.default).found
        = true →
      (scene_intersection M O D spheres Vec3f.zero Vec3f.zero Material.default).hit
        = point →
      (scene_intersection M O D spheres Vec3f.zero Vec3f.zero Material.default).N = N →
      ray_casting M O D spheres [l] depth =
        (ray_casting M
          (reflect_ray M D (scene_intersection M O D spheres Vec3f.zero Vec3f.zero
            Material.default)).1
          (reflect_ray M D (scene_intersection M O D spheres Vec3f.zero Vec3f.zero
            Material.default)).2 spheres [l] (depth + 1)).scale
          (scene_intersection M O D spheres Vec3f.zero Vec3f.zero
            Material.default).material.albedo.c2
        + (ray_casting M
          (refract_ray M D (scene_intersection M O D spheres Vec3f.zero Vec3f.zero
            Material.default)).1
          (refract_ray M D (scene_intersection M O D spheres Vec3f.zero Vec3f.zero
            Material.default)).2 spheres [l] (depth + 1)).scale
          (scene_intersection M O D spheres Vec3f.zero Vec3f.zero
            Material.default).material.albedo.c3) := by
  have hsh : shadowed M spheres point N l = true := by
    unfold shadowed
    simp only []
    rw [hfound, Bool.true_and]
    exact decide_eq_true hnear
  have hstep : ∀ (direction : Vec3f F) (material : Material F) (acc : F × F),
      light_step M spheres direction point N material acc l = acc := by
    intro direction material acc
    unfold light_step
    simp only []
    rw [if_pos hsh]
  refine ⟨hstep, ?_⟩
  intro O D depth hdepth hf hhit hN
  rw [ray_casting_unfold, if_neg (by omega), if_neg (by rw [hf]; exact Bool.noConfusion)]
  unfold shade
  simp only [List.foldl_cons, List.foldl_nil]
  rw [hhit, hN, hstep]
  ext <;> simp

end Scene

end Properties

/-! # Further properties of the intersection engine and of refraction -/

section MoreProperties

variable {F : Type} [LinearOrderedField F]

/-- C17 (amended). In exact real arithmetic, for an origin strictly inside a sphere
(`|C - O|² < r²`), `Sphere::intersection` returns `true` for every direction, and the
reported parameter is the far root `tca + thc`, which is strictly positive. Only `r²`
enters, so the sign of the radius plays no role. -/
theorem intersection_from_inside (M : Libm F) (hM : M.Exact) (s : Sphere F)
    (O D : Vec3f F)
    (hin : (s.sphere_center - O).dot (s.sphere_center - O) < s.radius * s.radius) :
    s.intersection M O D =
      some ((s.sphere_center - O).dot D +
        M.sqrtf (s.radius * s.radius -
          ((s.sphere_center - O).dot (s.sphere_center - O)
            - (s.sphere_center - O).dot D * (s.sphere_center - O).dot D))) ∧
    0 < (s.sphere_center - O).dot D +
        M.sqrtf (s.radius * s.radius -
          ((s.sphere_center - O).dot (s.sphere_center - O)
            - (s.sphere_center - O).dot D * (s.sphere_center - O).dot D)) := by
  unfold Sphere.intersection
  simp only []
  set v := s.sphere_center - O with hv
  set tca := v.dot D with htca
  have hsq : 0 ≤ tca * tca := mul_self_nonneg tca
  have hrad : 0 ≤ s.radius * s.radius - (v.dot v - tca * tca) := by linarith
  have h1 := hM.sqrtf_nonneg _ hrad
  have h2 := hM.sqrtf_mul_self _ hrad
  set thc := M.sqrtf (s.radius * s.radius - (v.dot v - tca * tca)) with hthc
  have hlt : tca * tca < thc * thc := by linarith
  have habs : |tca| < thc := abs_lt_of_sq_lt_sq (by rw [sq, sq]; exact hlt) h1
  have hneg : tca - thc < 0 := by linarith [le_abs_self tca]
  have hpos : 0 < tca + thc := by linarith [neg_abs_le tca]
  rw [if_neg (by linarith : ¬ (v.dot v - tca * tca > s.radius * s.radius)),
    if_pos hneg, if_neg (not_lt.mpr hpos.le)]
  exact ⟨rfl, hpos⟩

/-- C19. Whenever `Sphere::intersection` returns `true` with parameter `t` for a unit
direction `D`, then `t ≥ 0`, the point `O + t·D` lies exactly on the sphere
(`|O + t·D - C|² = r²`), and the argument `r² - d2` of the square root is
non-negative. -/
theorem intersection_hit_on_surface (M : Libm F) (hM : M.Exact) (s : Sphere F)
    (O D : Vec3f F) (t : F) (hD : D.dot D = 1)
    (ht : s.intersection M O D = some t) :
    0 ≤ t ∧
    ((O + D.scale t) - s.sphere_center).dot ((O + D.scale t) - s.sphere_center)
      = s.radius * s.radius ∧
    0 ≤ s.radius * s.radius -
      ((s.sphere_center - O).dot (s.sphere_center - O)
        - (s.sphere_center - O).dot D * (s.sphere_center - O).dot D) := by
  unfold Sphere.intersection at ht
  simp only [] at ht
  by_cases hd : (s.sphere_center - O).dot (s.sphere_center - O)
      - (s.sphere_center - O).dot D * (s.sphere_center - O).dot D > s.radius * s.radius
  · rw [if_pos hd] at ht; exact absurd ht (by simp)
  · rw [if_neg hd] at ht
    have hrad : 0 ≤ s.radius * s.radius -
        ((s.sphere_center - O).dot (s.sphere_center - O)
          - (s.sphere_center - O).dot D * (s.sphere_center - O).dot D) := by
      linarith [not_lt.mp hd]
    have h2 := hM.sqrtf_mul_self _ hrad
    have hsurf : ∀ u : F,
        (u - (s.sphere_center - O).dot D) * (u - (s.sphere_center - O).dot D)
          = s.radius * s.radius -
            ((s.sphere_center - O).dot (s.sphere_center - O)
              - (s.sphere_center - O).dot D * (s.sphere_center - O).dot D) →
        ((O + D.scale u) - s.sphere_center).dot ((O + D.scale u) - s.sphere_center)
          = s.radius * s.radius := by
      intro u hu
      simp only [Vec3f.dot, Vec3f.sub_x, Vec3f.sub_y, Vec3f.sub_z, Vec3f.add_x, Vec3f.add_y,
        Vec3f.add_z, Vec3f.scale_x, Vec3f.scale_y, Vec3f.scale_z] at hu hD ⊢
      linear_combination hu + (u * u) * hD
    refine ⟨?_, ?_, hrad⟩
    · by_cases h0 : (s.sphere_center - O).dot D - M.sqrtf (s.radius * s.radius -
          ((s.sphere_center - O).dot (s.sphere_center - O)
            - (s.sphere_center - O).dot D * (s.sphere_center - O).dot D)) < 0
      · rw [if_pos h0] at ht
        by_cases h1 : (s.sphere_center - O).dot D + M.sqrtf (s.radius * s.radius -
            ((s.sphere_center - O).dot (s.sphere_center - O)
              - (s.sphere_center - O).dot D * (s.sphere_center - O).dot D)) < 0
        · rw [if_pos h1] at ht; exact absurd ht (by simp)
        · rw [if_neg h1] at ht
          rw [← Option.some.inj ht]; exact not_lt.mp h1
      · rw [if_neg h0, if_neg h0] at ht
        rw [← Option.some.inj ht]; exact not_lt.mp h0
    · by_cases h0 : (s.sphere_center - O).dot D - M.sqrtf (s.radius * s.radius -
          ((s.sphere_center - O).dot (s.sphere_center - O)
            - (s.sphere_center - O).dot D * (s.sphere_center - O).dot D)) < 0
      · rw [if_pos h0] at ht
        by_cases h1 : (s.sphere_center - O).dot D + M.sqrtf (s.radius * s.radius -
            ((s.sphere_center - O).dot (s.sphere_center - O)
              - (s.sphere_center - O).dot D * (s.sphere_center - O).dot D)) < 0
        · rw [if_pos h1] at ht; exact absurd ht (by simp)
        · rw [if_neg h1] at ht
          rw [← Option.some.inj ht]
          apply hsurf
          linear_combination h2
      · rw [if_neg h0, if_neg h0] at ht
        rw [← Option.some.inj ht]
        apply hsurf
        linear_combination h2

/-- The callee of line 81 sees a non-negative (indeed positive) cosine. -/
theorem cosi_neg_normal_pos (L N : Vec3f F) (h : cosi L N < 0) : 0 < cosi L (-N) := by
  rw [cosi_neg_normal]; linarith

/-- The recursion of `refraction` in exact arithmetic, where the dot product is a
number: at most one recursive call is made. A run bounded to two nested calls (or
more) returns the vector; the number of recursive calls is 1 when `cosi < 0` and 0
otherwise; and when `cosi < 0` triggers the call with `-N` and swapped indices, the
callee's `cosi` is strictly positive. -/
theorem refraction_terminates (M : Libm F) (L N : Vec3f F) (eta_t eta_i : F) :
    (∀ fuel, 2 ≤ fuel →
      refraction_fuel M fuel L N eta_t eta_i
        = some (refraction M L N eta_t eta_i, if cosi L N < 0 then 1 else 0)) ∧
    (cosi L N < 0 → 0 < cosi L (-N)) := by
  refine ⟨?_, cosi_neg_normal_pos L N⟩
  intro fuel hfuel
  obtain ⟨n, rfl⟩ : ∃ n, fuel = n + 2 := ⟨fuel - 2, by omega⟩
  by_cases h : cosi L N < 0
  · have h2 : ¬ cosi L (-N) < 0 := not_lt.mpr (cosi_neg_normal_pos L N h).le
    rw [refraction_of_cosi_neg M L N _ _ h,
      refraction_of_cosi_nonneg M L (-N) _ _ (not_lt.mp h2)]
    simp only [refraction_fuel, if_pos h, if_neg h2]
  · rw [refraction_of_cosi_nonneg M L N _ _ (not_lt.mp h)]
    simp only [refraction_fuel, if_neg h]

/-- Cauchy-Schwarz for unit vectors: the dot product lies in `[-1, 1]`. -/
theorem Vec3f.dot_sq_le_one (L N : Vec3f F) (hL : L.dot L = 1) (hN : N.dot N = 1) :
    L.dot N * L.dot N ≤ 1 := by
  simp only [Vec3f.dot] at hL hN ⊢
  nlinarith [sq_nonneg (L.x * N.y - L.y * N.x), sq_nonneg (L.y * N.z - L.z * N.y),
    sq_nonneg (L.z * N.x - L.x * N.z)]

/-- C16. For unit vectors `L`, `N` with `L·N ≤ 0` and indices with
`k = 1 - eta² (1 - (L·N)²) ≥ 0`, `eta = eta_i / eta_t`, the vector
`T = refraction(L, N, eta_t, eta_i)` obeys Snell's law: it has unit length, its
component perpendicular to `N` is `eta` times that of `L`, and `T·N ≤ 0`. -/
theorem refraction_snell (M : Libm F) (hM : M.Exact) (L N : Vec3f F) (eta_t eta_i : F)
    (hL : L.dot L = 1) (hN : N.dot N = 1) (hLN : L.dot N ≤ 0)
    (hk : 0 ≤ 1 - eta_i / eta_t * (eta_i / eta_t) * (1 - L.dot N * L.dot N)) :
    (refraction M L N eta_t eta_i).dot (refraction M L N eta_t eta_i) = 1 ∧
    (refraction M L N eta_t eta_i).norm M = 1 ∧
    refraction M L N eta_t eta_i - N.scale ((refraction M L N eta_t eta_i).dot N)
      = (L - N.scale (L.dot N)).scale (eta_i / eta_t) ∧
    (refraction M L N eta_t eta_i).dot N ≤ 0 := by
  have hcs := Vec3f.dot_sq_le_one L N hL hN
  have hge : -1 ≤ L.dot N := by nlinarith
  have hc : cosi L N = -(L.dot N) := by
    unfold cosi
    rw [min_eq_right (by linarith : L.dot N ≤ 1), max_eq_right hge]
  have hk2 : 1 - eta_i / eta_t * (eta_i / eta_t) * (1 - cosi L N * cosi L N)
      = 1 - eta_i / eta_t * (eta_i / eta_t) * (1 - L.dot N * L.dot N) := by
    rw [hc]; ring
  have hq0 := hM.sqrtf_nonneg _ hk
  have hq2 := hM.sqrtf_mul_self _ hk
  rw [refraction_of_cosi_nonneg M L N _ _ (by rw [hc]; linarith), hk2,
    if_neg (not_lt.mpr hk), hc]
  set q := M.sqrtf (1 - eta_i / eta_t * (eta_i / eta_t) * (1 - L.dot N * L.dot N)) with hq
  set e := eta_i / eta_t with he
  have hdotN : (L.scale e + N.scale (e * -(L.dot N) - q)).dot N = -q := by
    simp only [Vec3f.dot, Vec3f.add_x, Vec3f.add_y, Vec3f.add_z, Vec3f.scale_x,
      Vec3f.scale_y, Vec3f.scale_z] at hN ⊢
    linear_combination (e * -(L.x * N.x + L.y * N.y + L.z * N.z) - q) * hN
  have hunit : (L.scale e + N.scale (e * -(L.dot N) - q)).dot
      (L.scale e + N.scale (e * -(L.dot N) - q)) = 1 := by
    simp only [Vec3f.dot, Vec3f.add_x, Vec3f.add_y, Vec3f.add_z, Vec3f.scale_x,
      Vec3f.scale_y, Vec3f.scale_z] at hN hL hq2 ⊢
    linear_combination (e * e) * hL
      + ((e * -(L.x * N.x + L.y * N.y + L.z * N.z) - q)
          * (e * -(L.x * N.x + L.y * N.y + L.z * N.z) - q)) * hN + hq2
  refine ⟨hunit, ?_, ?_, ?_⟩
  · unfold Vec3f.norm
    rw [hunit]
    have h1 := hM.sqrtf_sq_of_nonneg (zero_le_one : (0 : F) ≤ 1)
    rwa [mul_one] at h1
  · rw [hdotN]
    ext <;> simp only [Vec3f.sub_x, Vec3f.sub_y, Vec3f.sub_z, Vec3f.add_x, Vec3f.add_y,
      Vec3f.add_z, Vec3f.scale_x, Vec3f.scale_y, Vec3f.scale_z] <;> ring
  · rw [hdotN]; linarith

section MoreScene

variable [FloorRing F]

/-- C18. Whenever `scene_intersection` accepts the floor (the condition of lines 104
and 107 holds, so the floor branch overwrites the hit), the returned normal is
`(0, 1, 0)` and the returned point is `O + D·d` at the strictly positive parameter `d`,
on the bounded tile: `y = -5` exactly, `|x| < 10` and `-30 < z < -10`. -/
theorem scene_intersection_floor_hit (M : Libm F) (O D : Vec3f F)
    (spheres : List (Sphere F)) (hit N : Vec3f F) (material : Material F)
    (hacc : floor_test O D ∧
      floor_param O D < (sphere_loop M O D spheres hit N material).spheres_dist) :
    (scene_intersection M O D spheres hit N material).N = ⟨0, 1, 0⟩ ∧
    (scene_intersection M O D spheres hit N material).hit
      = O + D.scale (floor_param O D) ∧
    0 < floor_param O D ∧
    (scene_intersection M O D spheres hit N material).hit.y = -5 ∧
    |(scene_intersection M O D spheres hit N material).hit.x| < 10 ∧
    -30 < (scene_intersection M O D spheres hit N material).hit.z ∧
    (scene_intersection M O D spheres hit N material).hit.z < -10 := by
  rw [scene_intersection_of_floor M O D spheres hit N material hacc]
  obtain ⟨⟨h1, h2, h3, h4, h5⟩, _⟩ := hacc
  refine ⟨rfl, rfl, h2, ?_, h3, h5, h4⟩
  have hy : D.y ≠ 0 := by
    intro h0
    rw [h0, abs_zero] at h1
    norm_num at h1
  show O.y + D.y * floor_param O D = -5
  unfold floor_param
  field_simp

end MoreScene

section Checker

variable [FloorRing F]

theorem toInt_of_nonneg (x : F) (h : 0 ≤ x) : toInt x = ⌊x⌋ := by
  unfold toInt; rw [if_pos h]

theorem toInt_of_neg (x : F) (h : x < 0) : toInt x = ⌈x⌉ := by
  unfold toInt; rw [if_neg (not_le.mpr h)]

/-- Rounding to nearest never goes below the floor. -/
theorem floor_le_round_even (y : F) : ⌊y⌋ ≤ round_even y := by
  unfold round_even
  split_ifs <;> omega

/-- An integer is its own rounding. -/
theorem round_even_intCast (n : ℤ) : round_even (n : F) = n := by
  unfold round_even
  rw [Int.floor_intCast, if_pos (by simp)]

/-- The nearest `double` of a non-negative number is non-negative. -/
theorem round_double_nonneg (y : F) (h : 0 ≤ y) : 0 ≤ round_double y := by
  unfold round_double
  split_ifs with h0
  · exact le_rfl
  · have hp : (0 : F) < 2 ^ (Int.log 2 |y| - 52) := zpow_pos (by norm_num) _
    have h1 : (0 : ℤ) ≤ ⌊y / 2 ^ (Int.log 2 |y| - 52)⌋ :=
      Int.floor_nonneg.mpr (div_nonneg h hp.le)
    have h2 := floor_le_round_even (y / 2 ^ (Int.log 2 |y| - 52))
    have h3 : (0 : F) ≤ (round_even (y / 2 ^ (Int.log 2 |y| - 52)) : F) := by
      exact_mod_cast h1.trans h2
    exact mul_nonneg h3 hp.le

/-- Between 512 and 1024 the values of type `double` are the multiples of `2 ^ (-43)`:
there `round_double` rounds to the nearest such multiple. -/
theorem round_double_of_mem (y : F) (h1 : 512 ≤ y) (h2 : y < 1024) :
    round_double y = (round_even (y * 2 ^ 43) : F) / 2 ^ 43 := by
  have hy : 0 < y := by linarith
  have hlog : Int.log 2 |y| = 9 := by
    rw [abs_of_pos hy]
    apply le_antisymm
    · have := (Int.lt_zpow_iff_log_lt (b := 2) (by norm_num) hy (x := 10)).mp
        (by norm_num; linarith)
      omega
    · exact (Int.zpow_le_iff_le_log (b := 2) (by norm_num) hy (x := 9)).mp
        (by norm_num; linarith)
  unfold round_double
  rw [if_neg hy.ne', hlog]
  have e1 : (2 : F) ^ ((9 : ℤ) - 52) = (2 ^ 43)⁻¹ := by
    rw [show ((9 : ℤ) - 52) = -((43 : ℕ) : ℤ) by norm_num, zpow_neg, zpow_natCast]
  rw [e1, div_inv_eq_mul, div_eq_mul_inv]

/-- A multiple of `2 ^ (-43)` between 512 and 1024 is a `double`: rounding leaves it
unchanged. -/
theorem round_double_of_mem_exact (y : F) (h1 : 512 ≤ y) (h2 : y < 1024)
    (h : ∃ n : ℤ, (n : F) = y * 2 ^ 43) : round_double y = y := by
  obtain ⟨n, hn⟩ := h
  rw [round_double_of_mem y h1 h2, ← hn, round_even_intCast, hn]
  field_simp

/-- On the floor tile the two conversions of line 111 are a floor (positive argument)
and a ceiling (negative argument). -/
theorem checker_on_tile (pt : Vec3f F) (hx : |pt.x| < 10) (hz : pt.z < -10) :
    checker pt =
      if (⌊round_double (1 / 2 * pt.x + 1000)⌋ + ⌈1 / 2 * pt.z⌉) % 2 ≠ 0
      then ⟨3 / 10, 3 / 10, 3 / 10⟩ else ⟨3 / 10, 2 / 10, 1 / 10⟩ := by
  have hx2 := (abs_lt.mp hx).1
  unfold checker
  rw [toInt_of_nonneg _ (round_double_nonneg _ (by linarith)), toInt_of_neg _ (by linarith)]

/-- The ceiling of a number that is not an integer is its floor plus one. -/
theorem ceil_eq_floor_add_one (a : F) (h : ¬ ∃ n : ℤ, (n : F) = a) : ⌈a⌉ = ⌊a⌋ + 1 := by
  rw [Int.ceil_eq_iff]
  constructor
  · have h1 : (⌊a⌋ : F) ≤ a := Int.floor_le a
    have h2 : (⌊a⌋ : F) ≠ a := fun he => h ⟨⌊a⌋, he⟩
    push_cast
    have := lt_of_le_of_ne h1 h2
    linarith
  · push_cast
    exact (Int.lt_floor_add_one a).le

/-- The ceiling of an integer is its floor. -/
theorem ceil_eq_floor_of_int (a : F) (h : ∃ n : ℤ, (n : F) = a) : ⌈a⌉ = ⌊a⌋ := by
  obtain ⟨n, rfl⟩ := h
  rw [Int.ceil_intCast, Int.floor_intCast]

/-- C14 (amended). When `scene_intersection` accepts the floor at the point
`(x, -5, z)`, the returned diffuse colour is light gray `(0.3, 0.3, 0.3)` when
`int(S) + int(0.5 z)` is odd and brown `(0.3, 0.2, 0.1)` when it is even, where `int`
truncates toward zero and `S` is the sum `0.5 x + 1000` as line 111 computes it, in
`double`: the exact sum rounded to the nearest `double`. In terms of floors: when
`0.5 z` is not an integer the colour is gray for an even `floor(S) + floor(0.5 z)` and
brown for an odd one; when `0.5 z` is an integer it is brown for an even sum and gray
for an odd one. `S` is the exact sum `0.5 x + 1000` whenever that sum is a multiple of
`2 ^ (-43)`. -/
theorem floor_checker_colour (M : Libm F) (O D : Vec3f F)
    (spheres : List (Sphere F)) (hit N : Vec3f F) (material : Material F)
    (hacc : floor_test O D ∧
      floor_param O D < (sphere_loop M O D spheres hit N material).spheres_dist) :
    (scene_intersection M O D spheres hit N material).material.diffuse_color =
      (if (toInt (round_double (1 / 2 * (O + D.scale (floor_param O D)).x + 1000))
          + toInt (1 / 2 * (O + D.scale (floor_param O D)).z)) % 2 ≠ 0
        then ⟨3 / 10, 3 / 10, 3 / 10⟩ else ⟨3 / 10, 2 / 10, 1 / 10⟩) ∧
    ((¬ ∃ n : ℤ, (n : F) = 1 / 2 * (O + D.scale (floor_param O D)).z) →
      (Even (⌊round_double (1 / 2 * (O + D.scale (floor_param O D)).x + 1000)⌋
          + ⌊1 / 2 * (O + D.scale (floor_param O D)).z⌋) →
        (scene_intersection M O D spheres hit N material).material.diffuse_color
          = ⟨3 / 10, 3 / 10, 3 / 10⟩) ∧
      (Odd (⌊round_double (1 / 2 * (O + D.scale (floor_param O D)).x + 1000)⌋
          + ⌊1 / 2 * (O + D.scale (floor_param O D)).z⌋) →
        (scene_intersection M O D spheres hit N material).material.diffuse_color
          = ⟨3 / 10, 2 / 10, 1 / 10⟩)) ∧
    ((∃ n : ℤ, (n : F) = 1 / 2 * (O + D.scale (floor_param O D)).z) →
      (Even (⌊round_double (1 / 2 * (O + D.scale (floor_param O D)).x + 1000)⌋
          + ⌊1 / 2 * (O + D.scale (floor_param O D)).z⌋) →
        (scene_intersection M O D spheres hit N material).material.diffuse_color
          = ⟨3 / 10, 2 / 10, 1 / 10⟩) ∧
      (Odd (⌊round_double (1 / 2 * (O + D.scale (floor_param O D)).x + 1000)⌋
          + ⌊1 / 2 * (O + D.scale (floor_param O D)).z⌋) →
        (scene_intersection M O D spheres hit N material).material.diffuse_color
          = ⟨3 / 10, 3 / 10, 3 / 10⟩)) ∧
    ((∃ n : ℤ, (n : F) = (1 / 2 * (O + D.scale (floor_param O D)).x + 1000) * 2 ^ 43) →
      round_double (1 / 2 * (O + D.scale (floor_param O D)).x + 1000)
        = 1 / 2 * (O + D.scale (floor_param O D)).x + 1000) := by
  rw [scene_intersection_of_floor M O D spheres hit N material hacc]
  obtain ⟨⟨_, _, h3, h4, _⟩, _⟩ := hacc
  show checker (O + D.scale (floor_param O D)) = _ ∧ _
  have hx2 := abs_lt.mp h3
  refine ⟨rfl, ?_, ?_, ?_⟩
  · intro hni
    show (_ → checker (O + D.scale (floor_param O D)) = _) ∧
      (_ → checker (O + D.scale (floor_param O D)) = _)
    rw [checker_on_tile _ h3 h4, ceil_eq_floor_add_one _ hni]
    constructor
    · intro he
      rw [Int.even_iff] at he
      rw [if_pos (by omega)]
    · intro ho
      rw [Int.odd_iff] at ho
      rw [if_neg (by omega)]
  · intro hi
    show (_ → checker (O + D.scale (floor_param O D)) = _) ∧
      (_ → checker (O + D.scale (floor_param O D)) = _)
    rw [checker_on_tile _ h3 h4, ceil_eq_floor_of_int _ hi]
    constructor
    · intro he
      rw [Int.even_iff] at he
      rw [if_neg (by omega)]
    · intro ho
      rw [Int.odd_iff] at ho
      rw [if_pos (by omega)]
  · intro hm
    exact round_double_of_mem_exact _ (by linarith [hx2.1]) (by linarith [hx2.2]) hm

end Checker

/-! ## Helpers for evaluating `ray_casting` on a given scene -/

/-- A sphere strictly outside of which the ray starts, pointing away, is not hit. -/
theorem intersection_none_of_outside_away (M : Libm F) (hM : M.Exact) (s : Sphere F)
    (O D : Vec3f F)
    (hout : s.radius * s.radius < (s.sphere_center - O).dot (s.sphere_center - O))
    (haway : (s.sphere_center - O).dot D ≤ 0) :
    s.intersection M O D = none := by
  unfold Sphere.intersection
  simp only []
  set v := s.sphere_center - O with hv
  set tca := v.dot D with htca
  by_cases hd : v.dot v - tca * tca > s.radius * s.radius
  · rw [if_pos hd]
  · rw [if_neg hd]
    have hrad : 0 ≤ s.radius * s.radius - (v.dot v - tca * tca) := by linarith [not_lt.mp hd]
    have h1 := hM.sqrtf_nonneg _ hrad
    have h2 := hM.sqrtf_mul_self _ hrad
    set thc := M.sqrtf (s.radius * s.radius - (v.dot v - tca * tca)) with hthc
    have hlt : thc < -tca := by
      have h3 : thc * thc < (-tca) * (-tca) := by linarith
      exact lt_of_mul_self_lt_mul_self₀ (by linarith) h3
    have ht0 : tca - thc < 0 := by linarith
    rw [if_pos ht0, if_pos (by linarith)]

theorem Libm.Exact.sqrtf_one {M : Libm F} (hM : M.Exact) : M.sqrtf 1 = 1 := by
  have h := hM.sqrtf_sq_of_nonneg (zero_le_one : (0 : F) ≤ 1)
  rwa [mul_one] at h

theorem Libm.Exact.sqrtf_four {M : Libm F} (hM : M.Exact) : M.sqrtf 4 = 2 := by
  have h := hM.sqrtf_sq_of_nonneg (zero_le_two : (0 : F) ≤ 2)
  norm_num at h
  exact h

section Casting

variable [FloorRing F]

/-- A ray that hits no sphere and is not accepted by the floor test hits nothing. -/
theorem scene_intersection_miss (M : Libm F) (O D : Vec3f F) (spheres : List (Sphere F))
    (hit N : Vec3f F) (material : Material F)
    (hs : ∀ s ∈ spheres, s.intersection M O D = none) (hf : ¬ floor_test O D) :
    (scene_intersection M O D spheres hit N material).found = false := by
  have hloop : sphere_loop M O D spheres hit N material = ⟨FLT_MAX, hit, N, material⟩ := by
    unfold sphere_loop
    apply sphere_fold_unchanged
    intro s hmem t ht
    rw [hs s hmem] at ht
    exact absurd ht (by simp)
  rw [scene_intersection_of_not_floor M O D spheres hit N material (fun hh => hf hh.1),
    hloop]
  exact decide_eq_false (not_lt.mpr FLT_MAX_ge)

/-- Line 123: a ray that hits nothing gets the background colour. -/
theorem ray_casting_of_miss (M : Libm F) (O D : Vec3f F) (spheres : List (Sphere F))
    (lights : List (Light F)) (depth : Nat)
    (h : (scene_intersection M O D spheres Vec3f.zero Vec3f.zero
      Material.default).found = false) :
    ray_casting M O D spheres lights depth = ⟨1 / 2, 1 / 5, 2 / 5⟩ := by
  rw [ray_casting_unfold]
  by_cases hd : depth > 5
  · rw [if_pos hd]; rfl
  · rw [if_neg hd, if_pos h]; rfl

/-- Lines 126-155: the colour of a shaded hit is the sum of the diffuse, specular,
reflection and refraction terms. -/
theorem ray_casting_of_hit (M : Libm F) (O D : Vec3f F) (spheres : List (Sphere F))
    (lights : List (Light F)) (depth : Nat) (hd : depth ≤ 5)
    (h : (scene_intersection M O D spheres Vec3f.zero Vec3f.zero
      Material.default).found = true) :
    ray_casting M O D spheres lights depth =
      diffuse_term M spheres lights D
          (scene_intersection M O D spheres Vec3f.zero Vec3f.zero Material.default)
        + specular_term M spheres lights D
          (scene_intersection M O D spheres Vec3f.zero Vec3f.zero Material.default)
        + (ray_casting M
          (reflect_ray M D (scene_intersection M O D spheres Vec3f.zero Vec3f.zero
            Material.default)).1
          (reflect_ray M D (scene_intersection M O D spheres Vec3f.zero Vec3f.zero
            Material.default)).2 spheres lights (depth + 1)).scale
          (scene_intersection M O D spheres Vec3f.zero Vec3f.zero
            Material.default).material.albedo.c2
        + (ray_casting M
          (refract_ray M D (scene_intersection M O D spheres Vec3f.zero Vec3f.zero
            Material.default)).1
          (refract_ray M D (scene_intersection M O D spheres Vec3f.zero Vec3f.zero
            Material.default)).2 spheres lights (depth + 1)).scale
          (scene_intersection M O D spheres Vec3f.zero Vec3f.zero
            Material.default).material.albedo.c3 := by
  rw [ray_casting_unfold, if_neg (by omega), if_neg (by rw [h]; exact Bool.noConfusion)]
  rfl

end Casting

end MoreProperties

/-! # The one-sphere scene of the end-to-end properties -/

section OneSphere

variable {F : Type} [LinearOrderedField F]

/-- The direction from `(0, 0, -8)` to the light at `(0, 20, 20)`. -/
theorem ivory_scene_light_direction (M : Libm F) :
    ((⟨0, 20, 20⟩ : Vec3f F) - ⟨0, 0, -8⟩).normalize M
      = ⟨0, 20 * (1 / M.sqrtf 1184), 28 * (1 / M.sqrtf 1184)⟩ := by
  norm_num [Vec3f.normalize, Vec3f.norm, Vec3f.dot, Vec3f.scale]

theorem sqrtf_1184_pos (M : Libm F) (hM : M.Exact) : 0 < M.sqrtf 1184 := by
  have h0 := hM.sqrtf_nonneg 1184 (by norm_num)
  have h2 := hM.sqrtf_mul_self 1184 (by norm_num)
  rcases h0.lt_or_eq with h | h
  · exact h
  · rw [← h] at h2; norm_num at h2

/-- The reflected ray at the hit of the one-sphere scene goes back along `+z`. -/
theorem ivory_scene_reflect_ray (M : Libm F) (hM : M.Exact) :
    reflect_ray M (⟨0, 0, -1⟩ : Vec3f F) ⟨true, ⟨0, 0, -8⟩, ⟨0, 0, 1⟩, ivory⟩
      = (⟨0, 0, -7999 / 1000⟩, ⟨0, 0, 1⟩) := by
  have h1 := hM.sqrtf_one
  norm_num [reflect_ray, reflection, offset_point, Vec3f.normalize, Vec3f.norm, Vec3f.dot,
    Vec3f.scale, h1]

variable [FloorRing F]

/-- The primary ray of the one-sphere scene hits the sphere at `(0, 0, -8)`. -/
theorem ivory_scene_hit (M : Libm F) (hM : M.Exact) :
    scene_intersection M ⟨0, 0, 0⟩ ⟨0, 0, -1⟩ [Sphere.mk ⟨0, 0, -10⟩ 2 ivory]
      Vec3f.zero Vec3f.zero Material.default
      = ⟨true, ⟨0, 0, -8⟩, ⟨0, 0, 1⟩, ivory⟩ := by
  have h4 := hM.sqrtf_four
  norm_num [scene_intersection, sphere_loop, sphere_step, Sphere.intersection, Vec3f.dot,
    FLT_MAX, Vec3f.normalize, Vec3f.norm, Vec3f.scale, h4]

/-- The light of the one-sphere scene is not shadowed at the hit point. -/
theorem ivory_scene_not_shadowed (M : Libm F) (hM : M.Exact) :
    shadowed M [Sphere.mk ⟨0, 0, -10⟩ 2 ivory] ⟨0, 0, -8⟩ ⟨0, 0, 1⟩
      (Light.mk ⟨0, 20, 20⟩ (3 / 2)) = false := by
  have hw := sqrtf_1184_pos M hM
  have hw1 : 0 < 1 / M.sqrtf 1184 := one_div_pos.mpr hw
  unfold shadowed
  simp only []
  rw [ivory_scene_light_direction]
  have hoff : offset_point (⟨0, 0, -8⟩ : Vec3f F) ⟨0, 0, 1⟩
      ⟨0, 20 * (1 / M.sqrtf 1184), 28 * (1 / M.sqrtf 1184)⟩ = ⟨0, 0, -7999 / 1000⟩ := by
    unfold offset_point
    rw [if_neg (by simp only [Vec3f.dot]; nlinarith)]
    norm_num [Vec3f.scale]
  rw [hoff]
  have hmiss : (scene_intersection M ⟨0, 0, -7999 / 1000⟩
      ⟨0, 20 * (1 / M.sqrtf 1184), 28 * (1 / M.sqrtf 1184)⟩
      [Sphere.mk ⟨0, 0, -10⟩ 2 ivory] Vec3f.zero Vec3f.zero Material.default).found
      = false := by
    apply scene_intersection_miss
    · intro s hs
      rw [List.mem_singleton] at hs
      subst hs
      apply intersection_none_of_outside_away M hM
      · norm_num [Vec3f.dot]
      · simp only [Vec3f.dot, Vec3f.mk_sub_mk]
        nlinarith
    · rintro ⟨_, h2, _⟩
      unfold floor_param at h2
      simp only [] at h2
      have h4 : -((0 : F) + 5) / (20 * (1 / M.sqrtf 1184)) < 0 := by
        apply div_neg_of_neg_of_pos <;> nlinarith
      exact absurd h2 (not_lt.mpr h4.le)
  rw [hmiss]
  rfl

/-- The intensities accumulated by the light loop at the hit of the one-sphere scene:
the single light contributes. -/
theorem ivory_scene_intensities (M : Libm F) (hM : M.Exact) :
    light_intensities M [Sphere.mk ⟨0, 0, -10⟩ 2 ivory] [Light.mk ⟨0, 20, 20⟩ (3 / 2)]
      ⟨0, 0, -1⟩ ⟨true, ⟨0, 0, -8⟩, ⟨0, 0, 1⟩, ivory⟩
      = (0 + 3 / 2 * max 0 ((((⟨0, 20, 20⟩ : Vec3f F) - ⟨0, 0, -8⟩).normalize M).dot
            ⟨0, 0, 1⟩),
         0 + M.powf (max 0 ((-reflection
            (-(((⟨0, 20, 20⟩ : Vec3f F) - ⟨0, 0, -8⟩).normalize M)) ⟨0, 0, 1⟩).dot
              ⟨0, 0, -1⟩)) (ivory : Material F).specular_exponent * (3 / 2)) := by
  unfold light_intensities
  simp only [List.foldl_cons, List.foldl_nil]
  unfold light_step
  simp only []
  rw [ivory_scene_not_shadowed M hM]
  rfl

/-- The diffuse intensity at the hit of the one-sphere scene is positive. -/
theorem ivory_scene_diffuse_intensity_pos (M : Libm F) (hM : M.Exact) :
    0 < (light_intensities M [Sphere.mk ⟨0, 0, -10⟩ 2 ivory]
      [Light.mk ⟨0, 20, 20⟩ (3 / 2)] ⟨0, 0, -1⟩
      ⟨true, ⟨0, 0, -8⟩, ⟨0, 0, 1⟩, ivory⟩).1 := by
  have hw1 : 0 < 1 / M.sqrtf 1184 := one_div_pos.mpr (sqrtf_1184_pos M hM)
  rw [ivory_scene_intensities M hM, ivory_scene_light_direction]
  have hdot : (⟨0, 20 * (1 / M.sqrtf 1184), 28 * (1 / M.sqrtf 1184)⟩ : Vec3f F).dot
      ⟨0, 0, 1⟩ = 28 * (1 / M.sqrtf 1184) := by
    simp only [Vec3f.dot]; ring
  show 0 < 0 + 3 / 2 * max 0 _
  rw [hdot, max_eq_right (by linarith)]
  linarith

/-- C11. In the scene of one ivory sphere of radius 2 at `(0, 0, -10)` and one light
at `(0, 20, 20)` of intensity 1.5, the primary ray from the origin along `(0, 0, -1)`
hits the sphere at `(0, 0, -8)`, the light is not shadowed there, and the diffuse term
`diffuse_color * diffuse_light_intensity * albedo[0]` of the colour returned by
`ray_casting` is strictly positive in every channel. -/
theorem ivory_scene_diffuse_positive (M : Libm F) (hM : M.Exact) :
    (scene_intersection M ⟨0, 0, 0⟩ ⟨0, 0, -1⟩ [Sphere.mk ⟨0, 0, -10⟩ 2 ivory]
      Vec3f.zero Vec3f.zero Material.default).found = true ∧
    (scene_intersection M ⟨0, 0, 0⟩ ⟨0, 0, -1⟩ [Sphere.mk ⟨0, 0, -10⟩ 2 ivory]
      Vec3f.zero Vec3f.zero Material.default).hit = ⟨0, 0, -8⟩ ∧
    shadowed M [Sphere.mk ⟨0, 0, -10⟩ 2 ivory]
      (scene_intersection M ⟨0, 0, 0⟩ ⟨0, 0, -1⟩ [Sphere.mk ⟨0, 0, -10⟩ 2 ivory]
        Vec3f.zero Vec3f.zero Material.default).hit
      (scene_intersection M ⟨0, 0, 0⟩ ⟨0, 0, -1⟩ [Sphere.mk ⟨0, 0, -10⟩ 2 ivory]
        Vec3f.zero Vec3f.zero Material.default).N
      (Light.mk ⟨0, 20, 20⟩ (3 / 2)) = false ∧
    0 < (diffuse_term M [Sphere.mk ⟨0, 0, -10⟩ 2 ivory] [Light.mk ⟨0, 20, 20⟩ (3 / 2)]
      ⟨0, 0, -1⟩
      (scene_intersection M ⟨0, 0, 0⟩ ⟨0, 0, -1⟩ [Sphere.mk ⟨0, 0, -10⟩ 2 ivory]
        Vec3f.zero Vec3f.zero Material.default)).x ∧
    0 < (diffuse_term M [Sphere.mk ⟨0, 0, -10⟩ 2 ivory] [Light.mk ⟨0, 20, 20⟩ (3 / 2)]
      ⟨0, 0, -1⟩
      (scene_intersection M ⟨0, 0, 0⟩ ⟨0, 0, -1⟩ [Sphere.mk ⟨0, 0, -10⟩ 2 ivory]
        Vec3f.zero Vec3f.zero Material.default)).y ∧
    0 < (diffuse_term M [Sphere.mk ⟨0, 0, -10⟩ 2 ivory] [Light.mk ⟨0, 20, 20⟩ (3 / 2)]
      ⟨0, 0, -1⟩
      (scene_intersection M ⟨0, 0, 0⟩ ⟨0, 0, -1⟩ [Sphere.mk ⟨0, 0, -10⟩ 2 ivory]
        Vec3f.zero Vec3f.zero Material.default)).z ∧
    ray_casting M ⟨0, 0, 0⟩ ⟨0, 0, -1⟩ [Sphere.mk ⟨0, 0, -10⟩ 2 ivory]
        [Light.mk ⟨0, 20, 20⟩ (3 / 2)] 0 =
      diffuse_term M [Sphere.mk ⟨0, 0, -10⟩ 2 ivory] [Light.mk ⟨0, 20, 20⟩ (3 / 2)]
          ⟨0, 0, -1⟩
          (scene_intersection M ⟨0, 0, 0⟩ ⟨0, 0, -1⟩ [Sphere.mk ⟨0, 0, -10⟩ 2 ivory]
            Vec3f.zero Vec3f.zero Material.default)
        + specular_term M [Sphere.mk ⟨0, 0, -10⟩ 2 ivory] [Light.mk ⟨0, 20, 20⟩ (3 / 2)]
          ⟨0, 0, -1⟩
          (scene_intersection M ⟨0, 0, 0⟩ ⟨0, 0, -1⟩ [Sphere.mk ⟨0, 0, -10⟩ 2 ivory]
            Vec3f.zero Vec3f.zero Material.default)
        + (ray_casting M
          (reflect_ray M ⟨0, 0, -1⟩ (scene_intersection M ⟨0, 0, 0⟩ ⟨0, 0, -1⟩
            [Sphere.mk ⟨0, 0, -10⟩ 2 ivory] Vec3f.zero Vec3f.zero Material.default)).1
          (reflect_ray M ⟨0, 0, -1⟩ (scene_intersection M ⟨0, 0, 0⟩ ⟨0, 0, -1⟩
            [Sphere.mk ⟨0, 0, -10⟩ 2 ivory] Vec3f.zero Vec3f.zero Material.default)).2
          [Sphere.mk ⟨0, 0, -10⟩ 2 ivory] [Light.mk ⟨0, 20, 20⟩ (3 / 2)] 1).scale
          (scene_intersection M ⟨0, 0, 0⟩ ⟨0, 0, -1⟩ [Sphere.mk ⟨0, 0, -10⟩ 2 ivory]
            Vec3f.zero Vec3f.zero Material.default).material.albedo.c2
        + (ray_casting M
          (refract_ray M ⟨0, 0, -1⟩ (scene_intersection M ⟨0, 0, 0⟩ ⟨0, 0, -1⟩
            [Sphere.mk ⟨0, 0, -10⟩ 2 ivory] Vec3f.zero Vec3f.zero Material.default)).1
          (refract_ray M ⟨0, 0, -1⟩ (scene_intersection M ⟨0, 0, 0⟩ ⟨0, 0, -1⟩
            [Sphere.mk ⟨0, 0, -10⟩ 2 ivory] Vec3f.zero Vec3f.zero Material.default)).2
          [Sphere.mk ⟨0, 0, -10⟩ 2 ivory] [Light.mk ⟨0, 20, 20⟩ (3 / 2)] 1).scale
          (scene_intersection M ⟨0, 0, 0⟩ ⟨0, 0, -1⟩ [Sphere.mk ⟨0, 0, -10⟩ 2 ivory]
            Vec3f.zero Vec3f.zero Material.default).material.albedo.c3 := by
  have hfound : (scene_intersection M ⟨0, 0, 0⟩ ⟨0, 0, -1⟩ [Sphere.mk ⟨0, 0, -10⟩ 2 ivory]
      Vec3f.zero Vec3f.zero Material.default).found = true := by
    rw [ivory_scene_hit M hM]
  refine ⟨hfound, ?_, ?_, ?_, ?_, ?_, ray_casting_of_hit M _ _ _ _ 0 (by norm_num) hfound⟩
  · rw [ivory_scene_hit M hM]
  · rw [ivory_scene_hit M hM]
    exact ivory_scene_not_shadowed M hM
  all_goals
    rw [ivory_scene_hit M hM]
    have hpos := ivory_scene_diffuse_intensity_pos M hM
    simp only [diffuse_term, ivory, Vec3f.scale_x, Vec3f.scale_y, Vec3f.scale_z]
    simp only [ivory] at hpos
    positivity

/-- The reflected ray of the one-sphere scene hits nothing: its colour is the
background. -/
theorem ivory_scene_reflect_color (M : Libm F) (hM : M.Exact) (lights : List (Light F))
    (depth : Nat) :
    ray_casting M ⟨0, 0, -7999 / 1000⟩ ⟨0, 0, 1⟩ [Sphere.mk ⟨0, 0, -10⟩ 2 ivory]
      lights depth = ⟨1 / 2, 1 / 5, 2 / 5⟩ := by
  apply ray_casting_of_miss
  apply scene_intersection_miss
  · intro s hs
    rw [List.mem_singleton] at hs
    subst hs
    apply intersection_none_of_outside_away M hM <;> norm_num [Vec3f.dot]
  · rintro ⟨h1, _⟩
    norm_num at h1

/-- The reflection term of the one-sphere scene is the background colour scaled by
`albedo[2] = 0.1`. -/
theorem ivory_scene_reflect_term (M : Libm F) (hM : M.Exact) :
    (ray_casting M
      (reflect_ray M ⟨0, 0, -1⟩ (scene_intersection M ⟨0, 0, 0⟩ ⟨0, 0, -1⟩
        [Sphere.mk ⟨0, 0, -10⟩ 2 ivory] Vec3f.zero Vec3f.zero Material.default)).1
      (reflect_ray M ⟨0, 0, -1⟩ (scene_intersection M ⟨0, 0, 0⟩ ⟨0, 0, -1⟩
        [Sphere.mk ⟨0, 0, -10⟩ 2 ivory] Vec3f.zero Vec3f.zero Material.default)).2
      [Sphere.mk ⟨0, 0, -10⟩ 2 ivory] [Light.mk ⟨0, 20, 20⟩ (3 / 2)] 1).scale
      (scene_intersection M ⟨0, 0, 0⟩ ⟨0, 0, -1⟩ [Sphere.mk ⟨0, 0, -10⟩ 2 ivory]
        Vec3f.zero Vec3f.zero Material.default).material.albedo.c2
      = ⟨1 / 20, 1 / 50, 1 / 25⟩ := by
  rw [ivory_scene_hit M hM, ivory_scene_reflect_ray M hM, ivory_scene_reflect_color M hM]
  norm_num [ivory, Vec3f.scale]

/-- C12 (amended). In the one-sphere scene (ivory albedo `(0.6, 0.3, 0.1, 0.0)`) the
refraction term `refract_color * albedo[3]` of the colour returned by `ray_casting` is
the zero vector, and the reflection term `reflect_color * albedo[2]` is the background
colour `(0.5, 0.2, 0.4)` scaled by `albedo[2] = 0.1`, that is `(0.05, 0.02, 0.04)`. -/
theorem ivory_scene_reflect_refract_terms (M : Libm F) (hM : M.Exact) :
    (ray_casting M
      (reflect_ray M ⟨0, 0, -1⟩ (scene_intersection M ⟨0, 0, 0⟩ ⟨0, 0, -1⟩
        [Sphere.mk ⟨0, 0, -10⟩ 2 ivory] Vec3f.zero Vec3f.zero Material.default)).1
      (reflect_ray M ⟨0, 0, -1⟩ (scene_intersection M ⟨0, 0, 0⟩ ⟨0, 0, -1⟩
        [Sphere.mk ⟨0, 0, -10⟩ 2 ivory] Vec3f.zero Vec3f.zero Material.default)).2
      [Sphere.mk ⟨0, 0, -10⟩ 2 ivory] [Light.mk ⟨0, 20, 20⟩ (3 / 2)] 1).scale
      (scene_intersection M ⟨0, 0, 0⟩ ⟨0, 0, -1⟩ [Sphere.mk ⟨0, 0, -10⟩ 2 ivory]
        Vec3f.zero Vec3f.zero Material.default).material.albedo.c2
      = ⟨1 / 20, 1 / 50, 1 / 25⟩ ∧
    (ray_casting M
      (refract_ray M ⟨0, 0, -1⟩ (scene_intersection M ⟨0, 0, 0⟩ ⟨0, 0, -1⟩
        [Sphere.mk ⟨0, 0, -10⟩ 2 ivory] Vec3f.zero Vec3f.zero Material.default)).1
      (refract_ray M ⟨0, 0, -1⟩ (scene_intersection M ⟨0, 0, 0⟩ ⟨0, 0, -1⟩
        [Sphere.mk ⟨0, 0, -10⟩ 2 ivory] Vec3f.zero Vec3f.zero Material.default)).2
      [Sphere.mk ⟨0, 0, -10⟩ 2 ivory] [Light.mk ⟨0, 20, 20⟩ (3 / 2)] 1).scale
      (scene_intersection M ⟨0, 0, 0⟩ ⟨0, 0, -1⟩ [Sphere.mk ⟨0, 0, -10⟩ 2 ivory]
        Vec3f.zero Vec3f.zero Material.default).material.albedo.c3
      = ⟨0, 0, 0⟩ := by
  refine ⟨ivory_scene_reflect_term M hM, ?_⟩
  rw [ivory_scene_hit M hM]
  ext <;> simp [ivory]

end OneSphere

/-! # Chains of reflected rays and the number of shaded hits -/

section Chain

variable {F : Type} [LinearOrderedField F] [FloorRing F]

end Chain

/-! # Two facing mirrored spheres -/

section Mirrors

variable {F : Type} [LinearOrderedField F]

variable [FloorRing F]

end Mirrors

section Traces

variable {F : Type} [LinearOrderedField F] [FloorRing F]

end Traces

section MirrorTraces

variable {F : Type} [LinearOrderedField F] [FloorRing F]

end MirrorTraces

/-! # Concrete scenes over the real numbers

One ivory sphere of radius 1 centred at `(0, 0, -4)`, seen from the origin along `-z`,
with a light behind the sphere at `(0, 0, -10)`; and a sphere resting on the floor
below the ray origin. -/

section Examples

theorem real_sqrt_eq {x y : ℝ} (hy : 0 ≤ y) (h : y * y = x) : Real.sqrt x = y := by
  rw [← h]; exact Real.sqrt_mul_self hy

/-- The primary ray hits the sphere at `(0, 0, -3)` with normal `(0, 0, 1)`. -/
theorem scene_one_sphere :
    scene_intersection (Libm.mk Real.sqrt Real.rpow) ⟨0, 0, 0⟩ ⟨0, 0, -1⟩
      [Sphere.mk (⟨0, 0, -4⟩ : Vec3f ℝ) 1
        ⟨⟨3 / 5, 3 / 10, 1 / 10, 0⟩, ⟨2 / 5, 2 / 5, 3 / 10⟩, 50, 1⟩]
      Vec3f.zero Vec3f.zero Material.default
    = ⟨true, ⟨0, 0, -3⟩, ⟨0, 0, 1⟩, ⟨⟨3 / 5, 3 / 10, 1 / 10, 0⟩, ⟨2 / 5, 2 / 5, 3 / 10⟩, 50, 1⟩⟩ := by
  norm_num [scene_intersection, sphere_loop, sphere_step, Sphere.intersection, Vec3f.dot,
    FLT_MAX, Vec3f.normalize, Vec3f.norm, Vec3f.scale]

theorem one_sphere_reflect_ray :
    reflect_ray (Libm.mk Real.sqrt Real.rpow) (⟨0, 0, -1⟩ : Vec3f ℝ)
      ⟨true, ⟨0, 0, -3⟩, ⟨0, 0, 1⟩, ⟨⟨3 / 5, 3 / 10, 1 / 10, 0⟩, ⟨2 / 5, 2 / 5, 3 / 10⟩, 50, 1⟩⟩
      = (⟨0, 0, -2999 / 1000⟩, ⟨0, 0, 1⟩) := by
  norm_num [reflect_ray, reflection, offset_point, Vec3f.normalize, Vec3f.norm, Vec3f.dot,
    Vec3f.scale]

theorem one_sphere_refract_ray :
    refract_ray (Libm.mk Real.sqrt Real.rpow) (⟨0, 0, -1⟩ : Vec3f ℝ)
      ⟨true, ⟨0, 0, -3⟩, ⟨0, 0, 1⟩, ⟨⟨3 / 5, 3 / 10, 1 / 10, 0⟩, ⟨2 / 5, 2 / 5, 3 / 10⟩, 50, 1⟩⟩
      = (⟨0, 0, -3001 / 1000⟩, ⟨0, 0, -1⟩) := by
  have h : refraction (Libm.mk Real.sqrt Real.rpow) (⟨0, 0, -1⟩ : Vec3f ℝ) ⟨0, 0, 1⟩ 1 1
      = ⟨0, 0, -1⟩ :=
    refraction_one_one_of_cosi_nonneg _ (real_exact _) _ _ (by norm_num [cosi, Vec3f.dot])
  simp only [refract_ray, h]
  norm_num [offset_point, Vec3f.normalize, Vec3f.norm, Vec3f.dot, Vec3f.scale]

/-- The direction from the hit point `(0, 0, -3)` to the light at `(0, 0, -10)`. -/
theorem light_behind_direction :
    ((⟨0, 0, -10⟩ : Vec3f ℝ) - ⟨0, 0, -3⟩).normalize (Libm.mk Real.sqrt Real.rpow)
      = ⟨0, 0, -1⟩ := by
  have h : Real.sqrt 49 = 7 := real_sqrt_eq (by norm_num) (by norm_num)
  norm_num [Vec3f.normalize, Vec3f.norm, Vec3f.dot, Vec3f.scale, h]

theorem light_behind_shadow_point :
    offset_point (⟨0, 0, -3⟩ : Vec3f ℝ) ⟨0, 0, 1⟩ ⟨0, 0, -1⟩ = ⟨0, 0, -3001 / 1000⟩ := by
  norm_num [offset_point, Vec3f.dot, Vec3f.scale]

/-- The shadow ray starts just inside the sphere and leaves it at `(0, 0, -5)`. -/
theorem light_behind_shadow_ray :
    scene_intersection (Libm.mk Real.sqrt Real.rpow) ⟨0, 0, -3001 / 1000⟩ ⟨0, 0, -1⟩
      [Sphere.mk (⟨0, 0, -4⟩ : Vec3f ℝ) 1
        ⟨⟨3 / 5, 3 / 10, 1 / 10, 0⟩, ⟨2 / 5, 2 / 5, 3 / 10⟩, 50, 1⟩]
      Vec3f.zero Vec3f.zero Material.default
    = ⟨true, ⟨0, 0, -5⟩, ⟨0, 0, -1⟩, ⟨⟨3 / 5, 3 / 10, 1 / 10, 0⟩, ⟨2 / 5, 2 / 5, 3 / 10⟩, 50, 1⟩⟩ := by
  norm_num [scene_intersection, sphere_loop, sphere_step, Sphere.intersection, Vec3f.dot,
    FLT_MAX, Vec3f.normalize, Vec3f.norm, Vec3f.scale]

theorem light_behind_distances :
    ((⟨0, 0, -5⟩ : Vec3f ℝ) - ⟨0, 0, -3001 / 1000⟩).norm (Libm.mk Real.sqrt Real.rpow)
      < ((⟨0, 0, -10⟩ : Vec3f ℝ) - ⟨0, 0, -3⟩).norm (Libm.mk Real.sqrt Real.rpow) := by
  have h : Real.sqrt 49 = 7 := real_sqrt_eq (by norm_num) (by norm_num)
  have h2 : Real.sqrt (3996001 / 1000000) = 1999 / 1000 :=
    real_sqrt_eq (by norm_num) (by norm_num)
  norm_num [Vec3f.norm, Vec3f.dot, h, h2]

theorem scene_intersection_nearest_witness :
    ∃ t, hit_param (Libm.mk Real.sqrt Real.rpow) ⟨0, 0, 0⟩ ⟨0, 0, -1⟩
        [Sphere.mk (⟨0, 0, -4⟩ : Vec3f ℝ) 1
        ⟨⟨3 / 5, 3 / 10, 1 / 10, 0⟩, ⟨2 / 5, 2 / 5, 3 / 10⟩, 50, 1⟩] t ∧
      (∀ u, hit_param (Libm.mk Real.sqrt Real.rpow) ⟨0, 0, 0⟩ ⟨0, 0, -1⟩
        [Sphere.mk (⟨0, 0, -4⟩ : Vec3f ℝ) 1
        ⟨⟨3 / 5, 3 / 10, 1 / 10, 0⟩, ⟨2 / 5, 2 / 5, 3 / 10⟩, 50, 1⟩] u → t ≤ u) ∧
      t < 1000 ∧
      (scene_intersection (Libm.mk Real.sqrt Real.rpow) ⟨0, 0, 0⟩ ⟨0, 0, -1⟩
        [Sphere.mk (⟨0, 0, -4⟩ : Vec3f ℝ) 1
        ⟨⟨3 / 5, 3 / 10, 1 / 10, 0⟩, ⟨2 / 5, 2 / 5, 3 / 10⟩, 50, 1⟩]
        Vec3f.zero Vec3f.zero Material.default).hit
        = (⟨0, 0, 0⟩ : Vec3f ℝ) + (⟨0, 0, -1⟩ : Vec3f ℝ).scale t :=
  (scene_intersection_nearest _ _ _ _ _ _ _).1 (by rw [scene_one_sphere])

theorem ray_casting_miss_background_witness :
    ray_casting (Libm.mk Real.sqrt Real.rpow) ⟨0, 0, 0⟩ ⟨0, 0, -1⟩ []
      [Light.mk ⟨0, 20, 20⟩ (3 / 2)] 0 = (⟨1 / 2, 1 / 5, 2 / 5⟩ : Vec3f ℝ) :=
  ray_casting_miss_background _ _ _ _ _ (Or.inl (by norm_num))

theorem ray_casting_total_witness :
    ∃ trace, ray_casting_fuel (Libm.mk Real.sqrt Real.rpow) 7 ⟨0, 0, 0⟩ ⟨0, 0, -1⟩
        [Sphere.mk (⟨0, 0, -4⟩ : Vec3f ℝ) 1
        ⟨⟨3 / 5, 3 / 10, 1 / 10, 0⟩, ⟨2 / 5, 2 / 5, 3 / 10⟩, 50, 1⟩]
        [Light.mk ⟨0, 0, -10⟩ (3 / 2)] 0 =
      some (ray_casting (Libm.mk Real.sqrt Real.rpow) ⟨0, 0, 0⟩ ⟨0, 0, -1⟩
        [Sphere.mk (⟨0, 0, -4⟩ : Vec3f ℝ) 1
        ⟨⟨3 / 5, 3 / 10, 1 / 10, 0⟩, ⟨2 / 5, 2 / 5, 3 / 10⟩, 50, 1⟩]
        [Light.mk ⟨0, 0, -10⟩ (3 / 2)] 0, trace) ∧ ∀ d ∈ trace, d ≤ 5 :=
  (ray_casting_total _ _ _ _ _ 0).2.2

theorem shadowed_light_adds_nothing_witness :
    light_step (Libm.mk Real.sqrt Real.rpow)
      [Sphere.mk (⟨0, 0, -4⟩ : Vec3f ℝ) 1
        ⟨⟨3 / 5, 3 / 10, 1 / 10, 0⟩, ⟨2 / 5, 2 / 5, 3 / 10⟩, 50, 1⟩]
      ⟨0, 0, -1⟩ ⟨0, 0, -3⟩ ⟨0, 0, 1⟩ ⟨⟨3 / 5, 3 / 10, 1 / 10, 0⟩, ⟨2 / 5, 2 / 5, 3 / 10⟩, 50, 1⟩
      (0, 0) (Light.mk ⟨0, 0, -10⟩ (3 / 2)) = (0, 0) ∧
    ray_casting (Libm.mk Real.sqrt Real.rpow) ⟨0, 0, 0⟩ ⟨0, 0, -1⟩
      [Sphere.mk (⟨0, 0, -4⟩ : Vec3f ℝ) 1
        ⟨⟨3 / 5, 3 / 10, 1 / 10, 0⟩, ⟨2 / 5, 2 / 5, 3 / 10⟩, 50, 1⟩]
      [Light.mk ⟨0, 0, -10⟩ (3 / 2)] 0 =
      (ray_casting (Libm.mk Real.sqrt Real.rpow) ⟨0, 0, -2999 / 1000⟩ ⟨0, 0, 1⟩
        [Sphere.mk (⟨0, 0, -4⟩ : Vec3f ℝ) 1
        ⟨⟨3 / 5, 3 / 10, 1 / 10, 0⟩, ⟨2 / 5, 2 / 5, 3 / 10⟩, 50, 1⟩]
        [Light.mk ⟨0, 0, -10⟩ (3 / 2)] 1).scale (1 / 10)
      + (ray_casting (Libm.mk Real.sqrt Real.rpow) ⟨0, 0, -3001 / 1000⟩ ⟨0, 0, -1⟩
        [Sphere.mk (⟨0, 0, -4⟩ : Vec3f ℝ) 1
        ⟨⟨3 / 5, 3 / 10, 1 / 10, 0⟩, ⟨2 / 5, 2 / 5, 3 / 10⟩, 50, 1⟩]
        [Light.mk ⟨0, 0, -10⟩ (3 / 2)] 1).scale 0 := by
  have h := shadowed_light_adds_nothing (Libm.mk Real.sqrt Real.rpow)
    [Sphere.mk (⟨0, 0, -4⟩ : Vec3f ℝ) 1
        ⟨⟨3 / 5, 3 / 10, 1 / 10, 0⟩, ⟨2 / 5, 2 / 5, 3 / 10⟩, 50, 1⟩]
    ⟨0, 0, -3⟩ ⟨0, 0, 1⟩ (Light.mk ⟨0, 0, -10⟩ (3 / 2))
    (by rw [light_behind_direction, light_behind_shadow_point, light_behind_shadow_ray])
    (by rw [light_behind_direction, light_behind_shadow_point, light_behind_shadow_ray]
        exact light_behind_distances)
  refine ⟨h.1 _ _ _, ?_⟩
  have h2 := h.2 ⟨0, 0, 0⟩ ⟨0, 0, -1⟩ 0 (by norm_num) (by rw [scene_one_sphere])
    (by rw [scene_one_sphere]) (by rw [scene_one_sphere])
  rw [scene_one_sphere, one_sphere_reflect_ray, one_sphere_refract_ray] at h2
  exact h2

theorem scene_intersection_tie_witness :
    floor_test (⟨0, 0, -20⟩ : Vec3f ℝ) ⟨0, -1, 0⟩ ∧
    (scene_intersection (Libm.mk Real.sqrt Real.rpow) ⟨0, 0, -20⟩ ⟨0, -1, 0⟩
      ([] ++ Sphere.mk (⟨0, -6, -20⟩ : Vec3f ℝ) 1
        ⟨⟨3 / 5, 3 / 10, 1 / 10, 0⟩, ⟨2 / 5, 2 / 5, 3 / 10⟩, 50, 1⟩ :: [])
      Vec3f.zero Vec3f.zero Material.default).found
        = decide (floor_param (⟨0, 0, -20⟩ : Vec3f ℝ) ⟨0, -1, 0⟩ < 1000) ∧
    (scene_intersection (Libm.mk Real.sqrt Real.rpow) ⟨0, 0, -20⟩ ⟨0, -1, 0⟩
      ([] ++ Sphere.mk (⟨0, -6, -20⟩ : Vec3f ℝ) 1
        ⟨⟨3 / 5, 3 / 10, 1 / 10, 0⟩, ⟨2 / 5, 2 / 5, 3 / 10⟩, 50, 1⟩ :: [])
      Vec3f.zero Vec3f.zero Material.default).hit
        = (⟨0, 0, -20⟩ : Vec3f ℝ)
          + (⟨0, -1, 0⟩ : Vec3f ℝ).scale (floor_param (⟨0, 0, -20⟩ : Vec3f ℝ) ⟨0, -1, 0⟩) ∧
    (scene_intersection (Libm.mk Real.sqrt Real.rpow) ⟨0, 0, -20⟩ ⟨0, -1, 0⟩
      ([] ++ Sphere.mk (⟨0, -6, -20⟩ : Vec3f ℝ) 1
        ⟨⟨3 / 5, 3 / 10, 1 / 10, 0⟩, ⟨2 / 5, 2 / 5, 3 / 10⟩, 50, 1⟩ :: [])
      Vec3f.zero Vec3f.zero Material.default).N
        = (((⟨0, 0, -20⟩ : Vec3f ℝ)
          + (⟨0, -1, 0⟩ : Vec3f ℝ).scale (floor_param (⟨0, 0, -20⟩ : Vec3f ℝ) ⟨0, -1, 0⟩))
          - ⟨0, -6, -20⟩).normalize (Libm.mk Real.sqrt Real.rpow) ∧
    (scene_intersection (Libm.mk Real.sqrt Real.rpow) ⟨0, 0, -20⟩ ⟨0, -1, 0⟩
      ([] ++ Sphere.mk (⟨0, -6, -20⟩ : Vec3f ℝ) 1
        ⟨⟨3 / 5, 3 / 10, 1 / 10, 0⟩, ⟨2 / 5, 2 / 5, 3 / 10⟩, 50, 1⟩ :: [])
      Vec3f.zero Vec3f.zero Material.default).material
        = ⟨⟨3 / 5, 3 / 10, 1 / 10, 0⟩, ⟨2 / 5, 2 / 5, 3 / 10⟩, 50, 1⟩ :=
  ⟨by norm_num [floor_test, floor_param, Vec3f.scale],
   scene_intersection_tie (Libm.mk Real.sqrt Real.rpow) ⟨0, 0, -20⟩ ⟨0, -1, 0⟩ [] []
    (Sphere.mk (⟨0, -6, -20⟩ : Vec3f ℝ) 1
      ⟨⟨3 / 5, 3 / 10, 1 / 10, 0⟩, ⟨2 / 5, 2 / 5, 3 / 10⟩, 50, 1⟩)
    Vec3f.zero Vec3f.zero Material.default
    (by norm_num [Sphere.intersection, Vec3f.dot, floor_param])
    (by simp) (by simp)
    (by norm_num [floor_param, FLT_MAX])⟩

end Examples

/-! # Further concrete scenes over the real numbers -/

section MoreExamples

/-- The ray from `(0, 0, -20)` straight down meets the floor at `(0, -5, -20)`. -/
theorem floor_ray_accepted :
    floor_test (⟨0, 0, -20⟩ : Vec3f ℝ) ⟨0, -1, 0⟩ ∧
    floor_param (⟨0, 0, -20⟩ : Vec3f ℝ) ⟨0, -1, 0⟩ <
      (sphere_loop (Libm.mk Real.sqrt Real.rpow) ⟨0, 0, -20⟩ ⟨0, -1, 0⟩ []
        Vec3f.zero Vec3f.zero Material.default).spheres_dist := by
  constructor
  · norm_num [floor_test, floor_param, Vec3f.scale]
  · norm_num [floor_param, sphere_loop, FLT_MAX]

/-- C14 (as stated, refuted). The ray from `(0, 0, -20)` straight down is accepted by
the floor test at `(0, -5, -20)`; `floor(0.5·0 + 1000) + floor(0.5·(-20)) = 990` is
even, and the returned diffuse colour is brown `(0.3, 0.2, 0.1)`, not light gray. -/
theorem floor_checker_even_sum_brown :
    (floor_test (⟨0, 0, -20⟩ : Vec3f ℝ) ⟨0, -1, 0⟩ ∧
      floor_param (⟨0, 0, -20⟩ : Vec3f ℝ) ⟨0, -1, 0⟩ <
        (sphere_loop (Libm.mk Real.sqrt Real.rpow) ⟨0, 0, -20⟩ ⟨0, -1, 0⟩ []
          Vec3f.zero Vec3f.zero Material.default).spheres_dist) ∧
    (scene_intersection (Libm.mk Real.sqrt Real.rpow) ⟨0, 0, -20⟩ ⟨0, -1, 0⟩ []
      Vec3f.zero Vec3f.zero Material.default).hit = ⟨0, -5, -20⟩ ∧
    Even (⌊(1 / 2 * 0 + 1000 : ℝ)⌋ + ⌊(1 / 2 * (-20) : ℝ)⌋) ∧
    (scene_intersection (Libm.mk Real.sqrt Real.rpow) ⟨0, 0, -20⟩ ⟨0, -1, 0⟩ []
      Vec3f.zero Vec3f.zero Material.default).material.diffuse_color
        = ⟨3 / 10, 2 / 10, 1 / 10⟩ ∧
    (scene_intersection (Libm.mk Real.sqrt Real.rpow) ⟨0, 0, -20⟩ ⟨0, -1, 0⟩ []
      Vec3f.zero Vec3f.zero Material.default).material.diffuse_color
        ≠ ⟨3 / 10, 3 / 10, 3 / 10⟩ := by
  have hc : checker (⟨0, -5, -20⟩ : Vec3f ℝ) = ⟨3 / 10, 2 / 10, 1 / 10⟩ := by
    have e1 : (1 / 2 * (-20 : ℝ)) = ((-10 : ℤ) : ℝ) := by norm_num
    have e2 : round_double (1 / 2 * (0 : ℝ) + 1000) = ((1000 : ℤ) : ℝ) := by
      rw [round_double_of_mem_exact _ (by norm_num) (by norm_num)
        ⟨1000 * 2 ^ 43, by norm_num⟩]
      norm_num
    rw [checker_on_tile _ (by norm_num) (by norm_num)]
    dsimp only
    rw [e1, e2, Int.ceil_intCast, Int.floor_intCast]
    norm_num
  have hpt : (⟨0, 0, -20⟩ : Vec3f ℝ) + (⟨0, -1, 0⟩ : Vec3f ℝ).scale
      (floor_param (⟨0, 0, -20⟩ : Vec3f ℝ) ⟨0, -1, 0⟩) = ⟨0, -5, -20⟩ := by
    norm_num [floor_param, Vec3f.scale]
  refine ⟨floor_ray_accepted, ?_, ?_, ?_, ?_⟩
  · rw [scene_intersection_of_floor _ _ _ _ _ _ _ floor_ray_accepted, hpt]
  · norm_num [Int.even_iff]
  · rw [scene_intersection_of_floor _ _ _ _ _ _ _ floor_ray_accepted, hpt]
    exact hc
  · rw [scene_intersection_of_floor _ _ _ _ _ _ _ floor_ray_accepted, hpt]
    show checker (⟨0, -5, -20⟩ : Vec3f ℝ) ≠ _
    rw [hc]
    intro h
    have hy := congrArg Vec3f.y h
    norm_num at hy

/-- The ray from `(-2^-60, 0, -15)` straight down meets the floor at
`(-2^-60, -5, -15)`. -/
theorem floor_ray_near_zero_accepted :
    floor_test (⟨-(1 / 2 ^ 60), 0, -15⟩ : Vec3f ℝ) ⟨0, -1, 0⟩ ∧
    floor_param (⟨-(1 / 2 ^ 60), 0, -15⟩ : Vec3f ℝ) ⟨0, -1, 0⟩ <
      (sphere_loop (Libm.mk Real.sqrt Real.rpow) ⟨-(1 / 2 ^ 60), 0, -15⟩ ⟨0, -1, 0⟩ []
        Vec3f.zero Vec3f.zero Material.default).spheres_dist ∧
    (⟨-(1 / 2 ^ 60), 0, -15⟩ : Vec3f ℝ) + (⟨0, -1, 0⟩ : Vec3f ℝ).scale
      (floor_param (⟨-(1 / 2 ^ 60), 0, -15⟩ : Vec3f ℝ) ⟨0, -1, 0⟩)
        = ⟨-(1 / 2 ^ 60), -5, -15⟩ := by
  refine ⟨?_, ?_, ?_⟩
  · norm_num [floor_test, floor_param, Vec3f.scale, abs_lt]
  · norm_num [floor_param, sphere_loop, FLT_MAX]
  · norm_num [floor_param, Vec3f.scale]

/-- The `double` sum `.5 * x + 1000` at `x = -2^-60` is `1000`: the exact sum
`1000 - 2^-61` lies between the neighbouring values `1000 - 2^-43` and `1000`, nearer
to the second. -/
theorem round_double_near_1000 :
    round_double (1 / 2 * (-(1 / 2 ^ 60) : ℝ) + 1000) = 1000 := by
  rw [round_double_of_mem _ (by norm_num) (by norm_num)]
  have hf : ⌊(1 / 2 * (-(1 / 2 ^ 60) : ℝ) + 1000) * 2 ^ 43⌋ = 1000 * 2 ^ 43 - 1 := by
    rw [Int.floor_eq_iff]
    constructor <;> norm_num
  unfold round_even
  rw [hf]
  norm_num

theorem floor_checker_colour_witness :
    ⌊(1 / 2 * (-(1 / 2 ^ 60)) + 1000 : ℝ)⌋ = 999 ∧
    round_double (1 / 2 * (-(1 / 2 ^ 60) : ℝ) + 1000) = 1000 ∧
    (scene_intersection (Libm.mk Real.sqrt Real.rpow) ⟨-(1 / 2 ^ 60), 0, -15⟩ ⟨0, -1, 0⟩ []
      Vec3f.zero Vec3f.zero Material.default).material.diffuse_color
        = (⟨3 / 10, 3 / 10, 3 / 10⟩ : Vec3f ℝ) := by
  refine ⟨?_, round_double_near_1000, ?_⟩
  · rw [Int.floor_eq_iff]
    constructor <;> norm_num
  · refine ((floor_checker_colour (Libm.mk Real.sqrt Real.rpow) ⟨-(1 / 2 ^ 60), 0, -15⟩
      ⟨0, -1, 0⟩ [] Vec3f.zero Vec3f.zero Material.default
      ⟨floor_ray_near_zero_accepted.1, floor_ray_near_zero_accepted.2.1⟩).2.1 ?_).1 ?_
    · rw [floor_ray_near_zero_accepted.2.2]
      rintro ⟨n, hn⟩
      have h2 : (2 * n : ℝ) = ((-15 : ℤ) : ℝ) := by
        push_cast
        linarith
      have h3 : 2 * n = -15 := by exact_mod_cast h2
      omega
    · rw [floor_ray_near_zero_accepted.2.2]
      dsimp only
      rw [round_double_near_1000]
      have hz : ⌊(1 / 2 * (-15) : ℝ)⌋ = -8 := by
        rw [Int.floor_eq_iff]
        constructor <;> norm_num
      have hs : ⌊(1000 : ℝ)⌋ = 1000 := by
        rw [Int.floor_eq_iff]
        constructor <;> norm_num
      rw [hz, hs]
      decide

/-- C15 (the code at the failing input). The ray from `(0, 0, -20)` straight down meets
the floor at parameter 5 in the empty scene and in the scene with one mirror sphere
below the floor (centre `(0, -8, -20)`, radius 1, hit at parameter 7). The floor hit is
accepted in both, at the same point, but the returned albedo, specular exponent and
refractive index are the defaults of the caller in the first scene and those of the
sphere in the second. -/
theorem floor_material_depends_on_spheres :
    (scene_intersection (Libm.mk Real.sqrt Real.rpow) ⟨0, 0, -20⟩ ⟨0, -1, 0⟩ []
      Vec3f.zero Vec3f.zero Material.default).hit = ⟨0, -5, -20⟩ ∧
    (scene_intersection (Libm.mk Real.sqrt Real.rpow) ⟨0, 0, -20⟩ ⟨0, -1, 0⟩
      [Sphere.mk (⟨0, -8, -20⟩ : Vec3f ℝ) 1 ⟨⟨0, 0, 1, 0⟩, ⟨1, 1, 1⟩, 1425, 3 / 2⟩]
      Vec3f.zero Vec3f.zero Material.default).hit = ⟨0, -5, -20⟩ ∧
    (scene_intersection (Libm.mk Real.sqrt Real.rpow) ⟨0, 0, -20⟩ ⟨0, -1, 0⟩ []
      Vec3f.zero Vec3f.zero Material.default).N = ⟨0, 1, 0⟩ ∧
    (scene_intersection (Libm.mk Real.sqrt Real.rpow) ⟨0, 0, -20⟩ ⟨0, -1, 0⟩
      [Sphere.mk (⟨0, -8, -20⟩ : Vec3f ℝ) 1 ⟨⟨0, 0, 1, 0⟩, ⟨1, 1, 1⟩, 1425, 3 / 2⟩]
      Vec3f.zero Vec3f.zero Material.default).N = ⟨0, 1, 0⟩ ∧
    (scene_intersection (Libm.mk Real.sqrt Real.rpow) ⟨0, 0, -20⟩ ⟨0, -1, 0⟩ []
      Vec3f.zero Vec3f.zero Material.default).material
        = ⟨⟨1, 0, 0, 0⟩, checker ⟨0, -5, -20⟩, 0, 1⟩ ∧
    (scene_intersection (Libm.mk Real.sqrt Real.rpow) ⟨0, 0, -20⟩ ⟨0, -1, 0⟩
      [Sphere.mk (⟨0, -8, -20⟩ : Vec3f ℝ) 1 ⟨⟨0, 0, 1, 0⟩, ⟨1, 1, 1⟩, 1425, 3 / 2⟩]
      Vec3f.zero Vec3f.zero Material.default).material
        = ⟨⟨0, 0, 1, 0⟩, checker ⟨0, -5, -20⟩, 1425, 3 / 2⟩ := by
  have h1 : scene_intersection (Libm.mk Real.sqrt Real.rpow) ⟨0, 0, -20⟩ ⟨0, -1, 0⟩ []
      Vec3f.zero Vec3f.zero Material.default
      = ⟨true, ⟨0, -5, -20⟩, ⟨0, 1, 0⟩, ⟨⟨1, 0, 0, 0⟩, checker ⟨0, -5, -20⟩, 0, 1⟩⟩ := by
    norm_num [scene_intersection, sphere_loop, FLT_MAX, Vec3f.scale, Material.default]
  have h2 : scene_intersection (Libm.mk Real.sqrt Real.rpow) ⟨0, 0, -20⟩ ⟨0, -1, 0⟩
      [Sphere.mk (⟨0, -8, -20⟩ : Vec3f ℝ) 1 ⟨⟨0, 0, 1, 0⟩, ⟨1, 1, 1⟩, 1425, 3 / 2⟩]
      Vec3f.zero Vec3f.zero Material.default
      = ⟨true, ⟨0, -5, -20⟩, ⟨0, 1, 0⟩,
          ⟨⟨0, 0, 1, 0⟩, checker ⟨0, -5, -20⟩, 1425, 3 / 2⟩⟩ := by
    norm_num [scene_intersection, sphere_loop, sphere_step, Sphere.intersection, Vec3f.dot,
      FLT_MAX, Vec3f.normalize, Vec3f.norm, Vec3f.scale]
  rw [h1, h2]
  exact ⟨rfl, rfl, rfl, rfl, rfl, rfl⟩

theorem ivory_scene_diffuse_positive_witness :
    (scene_intersection (Libm.mk Real.sqrt Real.rpow) ⟨0, 0, 0⟩ ⟨0, 0, -1⟩
      [Sphere.mk ⟨0, 0, -10⟩ 2 ivory] Vec3f.zero Vec3f.zero Material.default).hit
        = (⟨0, 0, -8⟩ : Vec3f ℝ) ∧
    0 < (diffuse_term (Libm.mk Real.sqrt Real.rpow) [Sphere.mk ⟨0, 0, -10⟩ 2 ivory]
      [Light.mk ⟨0, 20, 20⟩ (3 / 2)] ⟨0, 0, -1⟩
      (scene_intersection (Libm.mk Real.sqrt Real.rpow) ⟨0, 0, 0⟩ ⟨0, 0, -1⟩
        [Sphere.mk ⟨0, 0, -10⟩ 2 ivory] Vec3f.zero Vec3f.zero Material.default)).x :=
  ⟨(ivory_scene_diffuse_positive (Libm.mk Real.sqrt Real.rpow) (real_exact _)).2.1,
    (ivory_scene_diffuse_positive (Libm.mk Real.sqrt Real.rpow) (real_exact _)).2.2.2.1⟩

/-- C12 (as stated, refuted). In the one-sphere scene over the real numbers the
reflection term `reflect_color * albedo[2]` of the primary ray is
`(0.05, 0.02, 0.04)`, not the zero vector: `albedo[2]` is `0.1` and the reflected ray
returns the background colour. -/
theorem ivory_scene_reflect_term_ne_zero :
    (ray_casting (Libm.mk Real.sqrt Real.rpow)
      (reflect_ray (Libm.mk Real.sqrt Real.rpow) ⟨0, 0, -1⟩ (scene_intersection (Libm.mk Real.sqrt Real.rpow) ⟨0, 0, 0⟩ ⟨0, 0, -1⟩
        [Sphere.mk ⟨0, 0, -10⟩ 2 ivory] Vec3f.zero Vec3f.zero Material.default)).1
      (reflect_ray (Libm.mk Real.sqrt Real.rpow) ⟨0, 0, -1⟩ (scene_intersection (Libm.mk Real.sqrt Real.rpow) ⟨0, 0, 0⟩ ⟨0, 0, -1⟩
        [Sphere.mk ⟨0, 0, -10⟩ 2 ivory] Vec3f.zero Vec3f.zero Material.default)).2
      [Sphere.mk ⟨0, 0, -10⟩ 2 ivory] [Light.mk ⟨0, 20, 20⟩ (3 / 2)] 1).scale
      (scene_intersection (Libm.mk Real.sqrt Real.rpow) ⟨0, 0, 0⟩ ⟨0, 0, -1⟩ [Sphere.mk ⟨0, 0, -10⟩ 2 ivory]
        Vec3f.zero Vec3f.zero Material.default).material.albedo.c2
      = (⟨1 / 20, 1 / 50, 1 / 25⟩ : Vec3f ℝ) ∧
    (ray_casting (Libm.mk Real.sqrt Real.rpow)
      (reflect_ray (Libm.mk Real.sqrt Real.rpow) ⟨0, 0, -1⟩ (scene_intersection (Libm.mk Real.sqrt Real.rpow) ⟨0, 0, 0⟩ ⟨0, 0, -1⟩
        [Sphere.mk ⟨0, 0, -10⟩ 2 ivory] Vec3f.zero Vec3f.zero Material.default)).1
      (reflect_ray (Libm.mk Real.sqrt Real.rpow) ⟨0, 0, -1⟩ (scene_intersection (Libm.mk Real.sqrt Real.rpow) ⟨0, 0, 0⟩ ⟨0, 0, -1⟩
        [Sphere.mk ⟨0, 0, -10⟩ 2 ivory] Vec3f.zero Vec3f.zero Material.default)).2
      [Sphere.mk ⟨0, 0, -10⟩ 2 ivory] [Light.mk ⟨0, 20, 20⟩ (3 / 2)] 1).scale
      (scene_intersection (Libm.mk Real.sqrt Real.rpow) ⟨0, 0, 0⟩ ⟨0, 0, -1⟩ [Sphere.mk ⟨0, 0, -10⟩ 2 ivory]
        Vec3f.zero Vec3f.zero Material.default).material.albedo.c2
      ≠ (⟨0, 0, 0⟩ : Vec3f ℝ) := by
  refine ⟨ivory_scene_reflect_term _ (real_exact _), ?_⟩
  rw [ivory_scene_reflect_term _ (real_exact _)]
  intro h
  have hx := congrArg Vec3f.x h
  norm_num at hx

theorem ivory_scene_reflect_refract_terms_witness :
    (ray_casting (Libm.mk Real.sqrt Real.rpow)
      (refract_ray (Libm.mk Real.sqrt Real.rpow) ⟨0, 0, -1⟩ (scene_intersection (Libm.mk Real.sqrt Real.rpow) ⟨0, 0, 0⟩ ⟨0, 0, -1⟩
        [Sphere.mk ⟨0, 0, -10⟩ 2 ivory] Vec3f.zero Vec3f.zero Material.default)).1
      (refract_ray (Libm.mk Real.sqrt Real.rpow) ⟨0, 0, -1⟩ (scene_intersection (Libm.mk Real.sqrt Real.rpow) ⟨0, 0, 0⟩ ⟨0, 0, -1⟩
        [Sphere.mk ⟨0, 0, -10⟩ 2 ivory] Vec3f.zero Vec3f.zero Material.default)).2
      [Sphere.mk ⟨0, 0, -10⟩ 2 ivory] [Light.mk ⟨0, 20, 20⟩ (3 / 2)] 1).scale
      (scene_intersection (Libm.mk Real.sqrt Real.rpow) ⟨0, 0, 0⟩ ⟨0, 0, -1⟩ [Sphere.mk ⟨0, 0, -10⟩ 2 ivory]
        Vec3f.zero Vec3f.zero Material.default).material.albedo.c3
      = (⟨0, 0, 0⟩ : Vec3f ℝ) :=
  (ivory_scene_reflect_refract_terms (Libm.mk Real.sqrt Real.rpow) (real_exact _)).2

theorem refraction_snell_witness :
    (refraction (Libm.mk Real.sqrt Real.rpow) ⟨3 / 5, 0, -4 / 5⟩ ⟨0, 0, 1⟩ (3 / 2) 1).dot
        (refraction (Libm.mk Real.sqrt Real.rpow) ⟨3 / 5, 0, -4 / 5⟩ ⟨0, 0, 1⟩ (3 / 2) 1)
        = (1 : ℝ) ∧
    (refraction (Libm.mk Real.sqrt Real.rpow) ⟨3 / 5, 0, -4 / 5⟩ ⟨0, 0, 1⟩ (3 / 2) 1).dot
        ⟨0, 0, 1⟩ ≤ (0 : ℝ) :=
  ⟨(refraction_snell (Libm.mk Real.sqrt Real.rpow) (real_exact _) ⟨3 / 5, 0, -4 / 5⟩
      ⟨0, 0, 1⟩ (3 / 2) 1 (by norm_num [Vec3f.dot]) (by norm_num [Vec3f.dot])
      (by norm_num [Vec3f.dot]) (by norm_num [Vec3f.dot])).1,
   (refraction_snell (Libm.mk Real.sqrt Real.rpow) (real_exact _) ⟨3 / 5, 0, -4 / 5⟩
      ⟨0, 0, 1⟩ (3 / 2) 1 (by norm_num [Vec3f.dot]) (by norm_num [Vec3f.dot])
      (by norm_num [Vec3f.dot]) (by norm_num [Vec3f.dot])).2.2.2⟩

theorem intersection_from_inside_witness :
    0 < ((⟨0, 0, -10⟩ : Vec3f ℝ) - ⟨0, 0, -9⟩).dot ⟨0, 0, -1⟩ +
      Real.sqrt (2 * 2 -
        (((⟨0, 0, -10⟩ : Vec3f ℝ) - ⟨0, 0, -9⟩).dot ((⟨0, 0, -10⟩ : Vec3f ℝ) - ⟨0, 0, -9⟩)
          - ((⟨0, 0, -10⟩ : Vec3f ℝ) - ⟨0, 0, -9⟩).dot ⟨0, 0, -1⟩
            * ((⟨0, 0, -10⟩ : Vec3f ℝ) - ⟨0, 0, -9⟩).dot ⟨0, 0, -1⟩)) :=
  (intersection_from_inside (Libm.mk Real.sqrt Real.rpow) (real_exact _)
    (Sphere.mk ⟨0, 0, -10⟩ 2 ivory) ⟨0, 0, -9⟩ ⟨0, 0, -1⟩ (by norm_num [Vec3f.dot])).2

theorem scene_intersection_floor_hit_witness :
    (scene_intersection (Libm.mk Real.sqrt Real.rpow) ⟨0, 0, -20⟩ ⟨0, -1, 0⟩ []
      Vec3f.zero Vec3f.zero Material.default).N = (⟨0, 1, 0⟩ : Vec3f ℝ) ∧
    (scene_intersection (Libm.mk Real.sqrt Real.rpow) ⟨0, 0, -20⟩ ⟨0, -1, 0⟩ []
      Vec3f.zero Vec3f.zero Material.default).hit.y = (-5 : ℝ) :=
  ⟨(scene_intersection_floor_hit _ _ _ _ _ _ _ floor_ray_accepted).1,
   (scene_intersection_floor_hit _ _ _ _ _ _ _ floor_ray_accepted).2.2.2.1⟩

theorem intersection_hit_on_surface_witness :
    (0 : ℝ) ≤ 3 ∧
    (((⟨0, 0, 0⟩ : Vec3f ℝ) + (⟨0, 0, -1⟩ : Vec3f ℝ).scale 3) - ⟨0, 0, -4⟩).dot
      (((⟨0, 0, 0⟩ : Vec3f ℝ) + (⟨0, 0, -1⟩ : Vec3f ℝ).scale 3) - ⟨0, 0, -4⟩)
      = (1 : ℝ) * 1 :=
  ⟨(intersection_hit_on_surface (Libm.mk Real.sqrt Real.rpow) (real_exact _)
      (Sphere.mk ⟨0, 0, -4⟩ 1 ivory) ⟨0, 0, 0⟩ ⟨0, 0, -1⟩ 3 (by norm_num [Vec3f.dot])
      (by norm_num [Sphere.intersection, Vec3f.dot])).1,
   (intersection_hit_on_surface (Libm.mk Real.sqrt Real.rpow) (real_exact _)
      (Sphere.mk ⟨0, 0, -4⟩ 1 ivory) ⟨0, 0, 0⟩ ⟨0, 0, -1⟩ 3 (by norm_num [Vec3f.dot])
      (by norm_num [Sphere.intersection, Vec3f.dot])).2.1⟩

theorem refraction_terminates_witness :
    refraction_fuel (Libm.mk Real.sqrt Real.rpow) 2 ⟨4 / 5, 0, 3 / 5⟩ ⟨0, 0, 1⟩ (3 / 2) 1
      = some (refraction (Libm.mk Real.sqrt Real.rpow) ⟨4 / 5, 0, 3 / 5⟩ ⟨0, 0, 1⟩
          (3 / 2) 1,
        if cosi (⟨4 / 5, 0, 3 / 5⟩ : Vec3f ℝ) ⟨0, 0, 1⟩ < 0 then 1 else 0) :=
  (refraction_terminates _ _ _ _ _).1 2 (le_refl 2)

end MoreExamples

/-! # The `float` code where rounding, underflow or NaN decide

The theorems of this section evaluate the binary32 embedding (`F32`) at concrete
inputs; the rational values of the inputs (`Fl.toRat`, `F32.val`) are used to state
what holds of them exactly. -/

section Binary32

/-- Unary minus is an involution. -/
theorem Fl.neg_neg (a : Fl) : Fl.neg (Fl.neg a) = a := by
  cases a <;> simp [Fl.neg]

/-- Negating a vector twice returns it. -/
theorem F32.vneg_vneg (N : Vec3f Fl) : F32.vneg (F32.vneg N) = N := by
  cases N
  simp [F32.vneg, Fl.neg_neg]

/-- A NaN dot product passes the clamp of line 78 as `1.f`: `std::min(1.f, NaN)` is
its first argument, because `NaN < 1.f` is false. So `cosi` is `-1`. -/
theorem F32.cosi_of_dot_nan (L N : Vec3f Fl) (h : F32.dot L N = Fl.nan) :
    F32.cosi L N = Fl.fin true 1 0 := by
  unfold F32.cosi
  rw [h]
  rfl

/-- When `L * N` is NaN for `N` and for `-N`, every call of `refraction` takes the
branch of line 81 and calls again: no number of nested calls is enough. -/
theorem F32.refraction_of_dot_nan (L : Vec3f Fl) :
    ∀ (fuel : Nat) (N : Vec3f Fl) (eta_t eta_i : Fl),
      F32.dot L N = Fl.nan → F32.dot L (F32.vneg N) = Fl.nan →
      F32.refraction fuel L N eta_t eta_i = none := by
  intro fuel
  induction fuel with
  | zero => intros; rfl
  | succ n ih =>
    intro N eta_t eta_i h1 h2
    rw [F32.refraction, F32.cosi_of_dot_nan L N h1]
    rw [if_pos (by rfl)]
    exact ih (F32.vneg N) eta_i eta_t h2 (by rw [F32.vneg_vneg]; exact h1)

/-- C2 (as stated, refuted in `float`). Sphere of centre
`C = (16635327 · 2^-24, 0, -1088679 · 2^-23)` and radius 1, origin `O = (0, 0, 0)`,
direction `D = (0, 0, 1)`. Exactly, `|C - O|² > 1` (the origin is strictly outside)
and `(C - O)·D = C.z < 0` (the ray points away). In `float`, `v * v` rounds to `1`,
`tca * tca` to `4521263 · 2^-28`, so `d2 = 16494637 · 2^-24` is not above
`radius * radius = 1`; `thc = sqrtf(1 - d2)` exceeds `-tca` by `2^-26`, `t0 = tca - thc`
is negative and is replaced by `t1 = tca + thc = 2^-26`, which is not negative: the
method returns `true` with `t0 = 2^-26`. -/
theorem intersection_outside_away_float_hit :
    (0 : ℚ) < Fl.toRat F32.one ∧
    Fl.toRat F32.one * Fl.toRat F32.one <
      (F32.val ⟨Fl.fin false 16635327 (-24), F32.zero, Fl.fin true 1088679 (-23)⟩
          - F32.val ⟨F32.zero, F32.zero, F32.zero⟩).dot
        (F32.val ⟨Fl.fin false 16635327 (-24), F32.zero, Fl.fin true 1088679 (-23)⟩
          - F32.val ⟨F32.zero, F32.zero, F32.zero⟩) ∧
    (F32.val ⟨Fl.fin false 16635327 (-24), F32.zero, Fl.fin true 1088679 (-23)⟩
        - F32.val ⟨F32.zero, F32.zero, F32.zero⟩).dot
      (F32.val ⟨F32.zero, F32.zero, F32.one⟩) ≤ 0 ∧
    F32.intersection
      ⟨⟨Fl.fin false 16635327 (-24), F32.zero, Fl.fin true 1088679 (-23)⟩, F32.one,
        F32.default_material⟩
      ⟨F32.zero, F32.zero, F32.zero⟩ ⟨F32.zero, F32.zero, F32.one⟩
      = some (Fl.fin false 1 (-26)) := by
  refine ⟨?_, ?_, ?_, by decide!⟩
  · norm_num [Fl.toRat, F32.one]
  · show _ < Vec3f.dot (Vec3f.sub _ _) (Vec3f.sub _ _)
    norm_num [Fl.toRat, F32.one, F32.zero, F32.val, Vec3f.dot, Vec3f.sub]
  · show Vec3f.dot (Vec3f.sub _ _) _ ≤ 0
    norm_num [Fl.toRat, F32.one, F32.zero, F32.val, Vec3f.dot, Vec3f.sub]

/-- C7 (as stated, refuted in `float`). For `L = (0, 0, -0.1f)`
(`0.1f = 13421773 · 2^-27`) and `N = (0, 0, 1)`, `refraction(L, N, 1, 1)` returns
`(0, 0, -6710883 · 2^-26)`, seven units in the last place away from `L.z`: `cosi` is
`0.1f`, `k = 1 - (1 - cosi * cosi)` and `sqrtf(k)` are rounded, and
`eta * cosi - sqrtf(k)` is not zero. The same vector is returned for `N = (0, 0, -1)`,
through the branch of line 81. -/
theorem refraction_equal_indices_float_ne :
    F32.refraction 1 ⟨F32.zero, F32.zero, Fl.fin true 13421773 (-27)⟩
      ⟨F32.zero, F32.zero, F32.one⟩ F32.one F32.one
      = some ⟨F32.zero, F32.zero, Fl.fin true 6710883 (-26)⟩ ∧
    F32.refraction 2 ⟨F32.zero, F32.zero, Fl.fin true 13421773 (-27)⟩
      ⟨F32.zero, F32.zero, Fl.fin true 1 0⟩ F32.one F32.one
      = some ⟨F32.zero, F32.zero, Fl.fin true 6710883 (-26)⟩ ∧
    (⟨F32.zero, F32.zero, Fl.fin true 6710883 (-26)⟩ : Vec3f Fl)
      ≠ ⟨F32.zero, F32.zero, Fl.fin true 13421773 (-27)⟩ ∧
    Fl.toRat (Fl.fin true 6710883 (-26)) ≠ Fl.toRat (Fl.fin true 13421773 (-27)) := by
  refine ⟨by decide!, by decide!, by decide!, ?_⟩
  norm_num [Fl.toRat]

/-- C17 (as stated, refuted in `float`). Sphere of centre `(0, 0, 0)` and radius 1,
origin `O = (16777215 · 2^-24, 2748779 · 2^-33, 0)`, unit direction `D = (0, 0, 1)`.
Exactly, `|C - O|² < 1`: the origin is strictly inside. In `float`, `v * v` rounds to
`1` and `tca` is `0`, so `d2 = 1`, `thc = sqrtf(1 - 1) = 0` and the method returns
`true` with `t0 = tca - thc = 0`, which is not strictly positive. -/
theorem intersection_from_inside_float_zero :
    (0 : ℚ) < Fl.toRat F32.one ∧
    (F32.val ⟨F32.zero, F32.zero, F32.zero⟩
          - F32.val ⟨Fl.fin false 16777215 (-24), Fl.fin false 2748779 (-33), F32.zero⟩).dot
        (F32.val ⟨F32.zero, F32.zero, F32.zero⟩
          - F32.val ⟨Fl.fin false 16777215 (-24), Fl.fin false 2748779 (-33), F32.zero⟩)
      < Fl.toRat F32.one * Fl.toRat F32.one ∧
    (F32.val ⟨F32.zero, F32.zero, F32.one⟩).dot (F32.val ⟨F32.zero, F32.zero, F32.one⟩)
      = (1 : ℚ) ∧
    F32.intersection
      ⟨⟨F32.zero, F32.zero, F32.zero⟩, F32.one, F32.default_material⟩
      ⟨Fl.fin false 16777215 (-24), Fl.fin false 2748779 (-33), F32.zero⟩
      ⟨F32.zero, F32.zero, F32.one⟩
      = some F32.zero ∧
    Fl.lt F32.zero F32.zero = false ∧
    Fl.toRat F32.zero = 0 := by
  refine ⟨?_, ?_, ?_, by decide!, by decide!, ?_⟩
  · norm_num [Fl.toRat, F32.one]
  · show Vec3f.dot (Vec3f.sub _ _) (Vec3f.sub _ _) < _
    norm_num [Fl.toRat, F32.one, F32.zero, F32.val, Vec3f.dot, Vec3f.sub]
  · norm_num [Fl.toRat, F32.one, F32.zero, F32.val, Vec3f.dot]
  · norm_num [Fl.toRat, F32.zero]

/-- C20 (the code at the failing input). For the unit direction `L = (0, 0, -1)` and a
normal `N` whose components are NaN, `L * N` is NaN for `N` and for `-N`; the clamp of
line 78 then gives `cosi = -1` in the caller and again in the callee, so line 81 calls
`refraction` without end: no number of nested calls returns a vector. The same happens
for the finite vectors `L = (2^127, 2^127, 0)` and `N = (2^127, -2^127, 0)`, whose dot
product is `+∞ + -∞`. -/
theorem refraction_float_nan_no_return :
    F32.cosi ⟨F32.zero, F32.zero, Fl.fin true 1 0⟩ ⟨Fl.nan, Fl.nan, Fl.nan⟩
      = Fl.fin true 1 0 ∧
    F32.cosi ⟨F32.zero, F32.zero, Fl.fin true 1 0⟩ (F32.vneg ⟨Fl.nan, Fl.nan, Fl.nan⟩)
      = Fl.fin true 1 0 ∧
    (∀ (fuel : Nat) (eta_t eta_i : Fl),
      F32.refraction fuel ⟨F32.zero, F32.zero, Fl.fin true 1 0⟩
        ⟨Fl.nan, Fl.nan, Fl.nan⟩ eta_t eta_i = none) ∧
    (∀ (fuel : Nat) (eta_t eta_i : Fl),
      F32.refraction fuel ⟨Fl.fin false 1 127, Fl.fin false 1 127, F32.zero⟩
        ⟨Fl.fin false 1 127, Fl.fin true 1 127, F32.zero⟩ eta_t eta_i = none) :=
  ⟨by decide!, by decide!,
   fun fuel eta_t eta_i =>
    F32.refraction_of_dot_nan _ fuel _ eta_t eta_i (by decide!) (by decide!),
   fun fuel eta_t eta_i =>
    F32.refraction_of_dot_nan _ fuel _ eta_t eta_i (by decide!) (by decide!)⟩

/-- C5 (the code at the failing input). Scene of one sphere of centre `(0, 0, -4)` and
radius `1e-7f = 14073749 · 2^-47`, primary ray from `(0, 0, 0)` in the unit direction
`(0, 0, -1)`. `Sphere::intersection` returns `true` with `t0 = 4` (`4 - 1e-7f` rounds
to `4`), which is below `1000`; the loop of `scene_intersection` records the hit point
`(0, 0, -4)`, the centre itself, and the normal `(hit - sphere_center).normalize()`,
whose three components are NaN (`0 * (1 / 0)`). `ray_casting` then calls
`refraction(direction, N, ...)` at line 127, which does not return for any number of
nested calls, whatever the refractive indices. -/
theorem ray_casting_float_nan_normal :
    (0 : ℚ) < Fl.toRat (Fl.fin false 14073749 (-47)) ∧
    F32.intersection
      ⟨⟨F32.zero, F32.zero, Fl.fin true 1 2⟩, Fl.fin false 14073749 (-47),
        F32.default_material⟩
      ⟨F32.zero, F32.zero, F32.zero⟩ ⟨F32.zero, F32.zero, Fl.fin true 1 0⟩
      = some (Fl.fin false 1 2) ∧
    Fl.lt (Fl.fin false 1 2) (Fl.fin false 125 3) = true ∧
    F32.sphere_hit
      ⟨⟨F32.zero, F32.zero, Fl.fin true 1 2⟩, Fl.fin false 14073749 (-47),
        F32.default_material⟩
      ⟨F32.zero, F32.zero, F32.zero⟩ ⟨F32.zero, F32.zero, Fl.fin true 1 0⟩ (Fl.fin false 1 2)
      = (⟨F32.zero, F32.zero, Fl.fin true 1 2⟩, ⟨Fl.nan, Fl.nan, Fl.nan⟩) ∧
    (∀ (fuel : Nat) (eta_t eta_i : Fl),
      F32.refraction fuel ⟨F32.zero, F32.zero, Fl.fin true 1 0⟩
        (F32.sphere_hit
          ⟨⟨F32.zero, F32.zero, Fl.fin true 1 2⟩, Fl.fin false 14073749 (-47),
            F32.default_material⟩
          ⟨F32.zero, F32.zero, F32.zero⟩ ⟨F32.zero, F32.zero, Fl.fin true 1 0⟩
          (Fl.fin false 1 2)).2 eta_t eta_i = none) := by
  refine ⟨?_, by decide!, by decide!, by decide!, ?_⟩
  · norm_num [Fl.toRat]
  · intro fuel eta_t eta_i
    exact F32.refraction_of_dot_nan _ fuel _ eta_t eta_i (by decide!) (by decide!)

end Binary32

end RayTracing
